import Mathlib

namespace LeanInteract

/-!
Verification development for the LeanInteract repository, covering the
session-cache strategies (`src/lean_interact/sessioncache.py`) and the
multi-file workspace orchestrator (`src/lean_interact/workspace.py`).

Python dictionaries are embedded as association lists, Python sets as
duplicate-free lists, machine integers as `Int`/`Nat` (Python integers are
unbounded, so no wraparound is modelled), and raising code as functions
returning `Except PyError`.  Calls into a REPL subprocess
(`lean_server.run(...)`) are modelled by an oracle function
`Request → Response` supplied as a parameter, and every operation that can
talk to a subprocess additionally returns the list of requests it issued, so
that "zero extra subprocess calls" style properties are statable.
-/

deriving instance DecidableEq for Except

/-! ## Association-list model of Python `dict` -/

/-- `d.get(k)` — lookup of the first binding of `k`. -/
def dlookup {α : Type} [DecidableEq α] {β : Type} : List (α × β) → α → Option β
  | [], _ => none
  | (k, v) :: rest, a => if k = a then some v else dlookup rest a

/-- `d[k] = v` — overwrite the binding of `k`, or append a fresh one. -/
def dinsert {α : Type} [DecidableEq α] {β : Type} : List (α × β) → α → β → List (α × β)
  | [], a, b => [(a, b)]
  | (k, v) :: rest, a, b => if k = a then (a, b) :: rest else (k, v) :: dinsert rest a b

/-- `d.pop(k, None)` / `del d[k]` — drop the first binding of `k`. -/
def dremove {α : Type} [DecidableEq α] {β : Type} : List (α × β) → α → List (α × β)
  | [], _ => []
  | (k, v) :: rest, a => if k = a then rest else (k, v) :: dremove rest a

/-- `d.keys()`. -/
def dkeys {α β : Type} (m : List (α × β)) : List α := m.map Prod.fst

/-! ## SHA-256 (model of Python `hashlib.sha256(...).hexdigest()`)

`hashlib` is Python standard-library code external to the repository; we
embed a reference implementation of SHA-256 over ASCII strings so that the
concrete digests used in file names evaluate inside the logic.  The
compression state is a record of the eight 32-bit working variables. -/

def M32 : Nat := 4294967296

/-- Right rotation of a 32-bit word. -/
def rotr (n x : Nat) : Nat :=
  ((x >>> n) ||| (x <<< (32 - n))) % M32

/-- The 64 SHA-256 round constants (FIPS 180-4, written in decimal). -/
def shaK : List Nat :=
  [1116352408, 1899447441, 3049323471, 3921009573, 961987163,
   1508970993, 2453635748, 2870763221, 3624381080, 310598401,
   607225278, 1426881987, 1925078388, 2162078206, 2614888103,
   3248222580, 3835390401, 4022224774, 264347078, 604807628,
   770255983, 1249150122, 1555081692, 1996064986, 2554220882,
   2821834349, 2952996808, 3210313671, 3336571891, 3584528711,
   113926993, 338241895, 666307205, 773529912, 1294757372,
   1396182291, 1695183700, 1986661051, 2177026350, 2456956037,
   2730485921, 2820302411, 3259730800, 3345764771, 3516065817,
   3600352804, 4094571909, 275423344, 430227734, 506948616,
   659060556, 883997877, 958139571, 1322822218, 1537002063,
   1747873779, 1955562222, 2024104815, 2227730452, 2361852424,
   2428436474, 2756734187, 3204031479, 3329325298]

/-- The eight SHA-256 working variables. -/
structure Sha256State where
  va : Nat
  vb : Nat
  vc : Nat
  vd : Nat
  ve : Nat
  vf : Nat
  vg : Nat
  vh : Nat
deriving DecidableEq, Repr

/-- SHA-256 initial hash value (FIPS 180-4, written in decimal). -/
def shaH0 : Sha256State :=
  ⟨1779033703, 3144134277, 1013904242, 2773480762,
   1359893119, 2600822924, 528734635, 1541459225⟩

/-- Pad an ASCII byte message to a multiple of 64 bytes, appending `0x80`,
zeros, and the 64-bit big-endian bit length. -/
def padMessage (msg : List Nat) : List Nat :=
  let len := msg.length
  let bitLen := len * 8
  let padZeros := (119 - (len % 64)) % 64
  let lenBytes := (List.range 8).map (fun i => (bitLen >>> ((7 - i) * 8)) % 256)
  msg ++ [0x80] ++ List.replicate padZeros 0 ++ lenBytes

/-- Group bytes into big-endian 32-bit words. -/
def bytesToWords : List Nat → List Nat
  | b0 :: b1 :: b2 :: b3 :: rest => (((b0 * 256 + b1) * 256 + b2) * 256 + b3) :: bytesToWords rest
  | _ => []

/-- Message-schedule extension: grow the 16-word block to 64 words. -/
def extendWords (w : List Nat) : Nat → List Nat
  | 0 => w
  | n + 1 =>
    let w := extendWords w n
    let j := w.length
    if j < 64 then
      let w15 := w.getD (j - 15) 0
      let w2 := w.getD (j - 2) 0
      let s0 := (rotr 7 w15) ^^^ (rotr 18 w15) ^^^ (w15 >>> 3)
      let s1 := (rotr 17 w2) ^^^ (rotr 19 w2) ^^^ (w2 >>> 10)
      w ++ [(w.getD (j - 16) 0 + s0 + w.getD (j - 7) 0 + s1) % M32]
    else w

/-- One SHA-256 compression round for round constant and schedule word `kw`. -/
def compressRound (st : Sha256State) (kw : Nat × Nat) : Sha256State :=
  let s1 := (rotr 6 st.ve) ^^^ (rotr 11 st.ve) ^^^ (rotr 25 st.ve)
  let ch := (st.ve &&& st.vf) ^^^ ((M32 - 1 - st.ve) &&& st.vg)
  let t1 := (st.vh + s1 + ch + kw.1 + kw.2) % M32
  let s0 := (rotr 2 st.va) ^^^ (rotr 13 st.va) ^^^ (rotr 22 st.va)
  let mj := (st.va &&& st.vb) ^^^ (st.va &&& st.vc) ^^^ (st.vb &&& st.vc)
  let t2 := (s0 + mj) % M32
  ⟨(t1 + t2) % M32, st.va, st.vb, st.vc, (st.vd + t1) % M32, st.ve, st.vf, st.vg⟩

/-- Process one 64-byte block. -/
def processBlock (h : Sha256State) (block : List Nat) : Sha256State :=
  let w := extendWords (bytesToWords block) 48
  let st := (shaK.zip w).foldl compressRound h
  ⟨(h.va + st.va) % M32, (h.vb + st.vb) % M32, (h.vc + st.vc) % M32, (h.vd + st.vd) % M32,
   (h.ve + st.ve) % M32, (h.vf + st.vf) % M32, (h.vg + st.vg) % M32, (h.vh + st.vh) % M32⟩

/-- Chop a byte list into 64-byte blocks (fuel-based for structural recursion). -/
def splitBlocksAux : Nat → List Nat → List (List Nat)
  | 0, _ => []
  | _, [] => []
  | fuel + 1, b :: rest => ((b :: rest).take 64) :: splitBlocksAux fuel ((b :: rest).drop 64)

def splitBlocks (bytes : List Nat) : List (List Nat) :=
  splitBlocksAux bytes.length bytes

def hexDigit (n : Nat) : Char :=
  "0123456789abcdef".toList.getD n '0'

/-- Lowercase hex rendering of a 32-bit word (eight nibbles). -/
def toHex32 (x : Nat) : List Char :=
  (List.range 8).map (fun i => hexDigit ((x >>> ((7 - i) * 4)) % 16))

/-- `hashlib.sha256(s.encode()).hexdigest()` for an ASCII string `s`. -/
def sha256hex (s : String) : String :=
  let bytes := s.data.map Char.toNat
  let blocks := splitBlocks (padMessage bytes)
  let h := blocks.foldl processBlock shaH0
  String.mk (toHex32 h.va ++ toHex32 h.vb ++ toHex32 h.vc ++ toHex32 h.vd ++
             toHex32 h.ve ++ toHex32 h.vf ++ toHex32 h.vg ++ toHex32 h.vh)

/-! ## Requests and responses

Modelled from the spec: the module `lean_interact/interface.py` defining the
request and response variants is not under `src/` (only its importers are),
so the tagged unions follow spec section 3 (DATA MODEL), with constructor and
field names taken from the uses in `sessioncache.py` and `workspace.py`
(`request.env`, `request.proofState`, `request.path`, `response.env`,
`response.proof_state`, `response.message`, keyword arguments of the
pickle/unpickle constructors).  Diagnostic payload fields (messages, sorries,
goals) are omitted: the core treats them as opaque and never inspects them. -/

/-- Modelled from the spec: request variants of `lean_interact.interface`
(spec section 3, "Request — tagged variant"). -/
inductive Request where
  | command (cmd : String) (env : Option Int)
  | fileCommand (path : String)
  | proofStep (tactic : String) (proofState : Int)
  | pickleEnvironment (env : Int) (pickleTo : String)
  | pickleProofState (proofState : Int) (pickleTo : String)
  | unpickleEnvironment (unpickleEnvFrom : String)
  | unpickleProofState (unpickleProofStateFrom : String) (env : Option Int)
deriving DecidableEq, Repr

/-- Modelled from the spec: response variants of `lean_interact.interface`
(spec section 3, "Response — tagged variant"): `CommandResponse` (new
environment id), `ProofStepResponse` (new proof-state id), `LeanError`
(message). -/
inductive Response where
  | commandResponse (env : Int)
  | proofStepResponse (proofState : Int)
  | leanError (message : String)
deriving DecidableEq, Repr

/-- Python `getattr(request, "env", None)`: the variants carrying an `env`
field are `Command`, `PickleEnvironment` and `UnpickleProofState`. -/
def Request.envAttr : Request → Option Int
  | .command _ e => e
  | .pickleEnvironment e _ => some e
  | .unpickleProofState _ e => e
  | _ => none

/-- Python `getattr(request, "proofState", None)`: the variants carrying a
`proofState` field are `ProofStep` and `PickleProofState`. -/
def Request.proofStateAttr : Request → Option Int
  | .proofStep _ p => some p
  | .pickleProofState p _ => some p
  | _ => none

/-- Python `type(request).__name__`. -/
def Request.typeName : Request → String
  | .command .. => "Command"
  | .fileCommand .. => "FileCommand"
  | .proofStep .. => "ProofStep"
  | .pickleEnvironment .. => "PickleEnvironment"
  | .pickleProofState .. => "PickleProofState"
  | .unpickleEnvironment .. => "UnpickleEnvironment"
  | .unpickleProofState .. => "UnpickleProofState"

/-- `request.model_copy(update={"env": e})` on the variants carrying `env`
(used at workspace.py line 413; other variants are returned unchanged, the
access being guarded by `envAttr`). -/
def Request.withEnvAttr : Request → Option Int → Request
  | .command c _, e => .command c e
  | .pickleEnvironment _ p, some v => .pickleEnvironment v p
  | .pickleEnvironment v p, none => .pickleEnvironment v p
  | .unpickleProofState f _, e => .unpickleProofState f e
  | r, _ => r

/-- `request.model_copy(update={"proofState": p})` (workspace.py line 420). -/
def Request.withProofStateAttr : Request → Option Int → Request
  | .proofStep t _, some v => .proofStep t v
  | .proofStep t p, none => .proofStep t p
  | .pickleProofState _ f, some v => .pickleProofState v f
  | .pickleProofState p f, none => .pickleProofState p f
  | r, _ => r

/-- `isinstance(response, LeanError)`. -/
def Response.isLeanError : Response → Bool
  | .leanError _ => true
  | _ => false

/-- Python exceptions raised by the code under verification. -/
inductive PyError where
  | attributeError (message : String)
  | keyError (key : Int)
  | valueError (message : String)
  | runtimeError (message : String)
  | notImplementedError (message : String)
deriving DecidableEq, Repr

/-! ## Replay session cache

Source: `src/lean_interact/sessioncache.py`.  A `LeanServer` object is
identified inside the cache by the per-object key that
`BaseSessionCache._get_server_key` assigns (a fresh `uuid4` hex per server,
held in a `WeakKeyDictionary`); distinct live servers therefore always carry
distinct keys, and we model a server directly by this key string together
with its `run` method, passed as an oracle `Request → Response`. -/

/-- Source: dataclass `ReplaySessionState` (sessioncache.py lines 58-62 and
146-149): `session_id`, `is_proof_state`, `repl_ids : dict[str, int | None]`,
`request`, and the transient guard set `_materializing_servers : set[str]`. -/
structure ReplaySessionState where
  session_id : Int
  is_proof_state : Bool
  repl_ids : List (String × Option Int)
  request : Request
  materializing_servers : List String
deriving DecidableEq, Repr

/-- Source: `ReplaySessionCache._get_state_repl_id` — `state.repl_ids.get(key)`
(absent key and stored `None` both yield `None`). -/
def ReplaySessionState.get_repl_id_for (st : ReplaySessionState) (serverKey : String) :
    Option Int :=
  (dlookup st.repl_ids serverKey).bind id

/-- Source: `ReplaySessionCache._set_state_repl_id` —
`state.repl_ids[key] = repl_id`. -/
def ReplaySessionState.set_repl_id_for (st : ReplaySessionState) (serverKey : String)
    (v : Option Int) : ReplaySessionState :=
  { st with repl_ids := dinsert st.repl_ids serverKey v }

/-- Python `set.add` on the duplicate-free list model. -/
def setAdd (l : List String) (x : String) : List String :=
  if x ∈ l then l else x :: l

/-- Python `set.discard` on the duplicate-free list model. -/
def setDiscard (l : List String) (x : String) : List String :=
  l.erase x

/-- Source: `ReplaySessionCache._materialize_state` (sessioncache.py lines
174-209).  Returns the updated state, the list of requests issued to the
server, and the outcome.  The `try/finally` that discards the guard key is
reflected by computing the final guard set as `discard (add ...)`: the oracle
is total, so the `finally` always runs. -/
def materialize_state (run : Request → Response) (serverKey : String)
    (st : ReplaySessionState) :
    ReplaySessionState × List Request × Except PyError Unit :=
  match st.get_repl_id_for serverKey with
  | some _ => (st, [], .ok ())
  | none =>
    if serverKey ∈ st.materializing_servers then
      (st, [], .error (.runtimeError ("Session state " ++ toString st.session_id ++
        " is already being materialized.")))
    else
      let ms1 := setAdd st.materializing_servers serverKey
      let response := run st.request
      let ms2 := setDiscard ms1 serverKey
      let st1 := { st with materializing_servers := ms2 }
      match response with
      | .leanError m =>
        (st1, [st.request], .error (.valueError
          ("Could not replay the cached state. The server returned an error: " ++ m)))
      | _ =>
        if st.is_proof_state then
          match response with
          | .proofStepResponse p =>
            (st1.set_repl_id_for serverKey (some p), [st.request], .ok ())
          | _ =>
            (st1, [st.request], .error (.valueError
              "Could not replay the cached proof state. The server returned an unexpected response."))
        else
          match response with
          | .commandResponse e =>
            (st1.set_repl_id_for serverKey (some e), [st.request], .ok ())
          | _ =>
            (st1, [st.request], .error (.valueError
              "Could not replay the cached environment. The server returned an unexpected response."))

/-- Source: class `ReplaySessionCache` (sessioncache.py lines 152-282):
`_cache : dict[int, ReplaySessionState]`, `_state_counter` (starts at 0),
`_lazy`. -/
structure ReplaySessionCache where
  cache : List (Int × ReplaySessionState)
  state_counter : Int
  lazy : Bool
deriving DecidableEq, Repr

/-- Source: `ReplaySessionCache.__init__`. -/
def mkReplaySessionCache (lazy : Bool) : ReplaySessionCache :=
  { cache := [], state_counter := 0, lazy := lazy }

/-- Source: `ReplaySessionCache.add` (sessioncache.py lines 211-237).  The
counter is decremented before the response is inspected, so an unsupported
response still burns a handle; `request.model_copy(deep=True)` is the
identity on the immutable model.  Returns the cache after the call and the
outcome. -/
def ReplaySessionCache.add (c : ReplaySessionCache) (serverKey : String)
    (request : Request) (response : Response) : ReplaySessionCache × Except PyError Int :=
  let counter := c.state_counter - 1
  match response with
  | .proofStepResponse p =>
    let st : ReplaySessionState :=
      { session_id := counter, is_proof_state := true, repl_ids := [],
        request := request, materializing_servers := [] }
    ({ c with
        state_counter := counter,
        cache := dinsert c.cache counter (st.set_repl_id_for serverKey (some p)) },
     .ok counter)
  | .commandResponse e =>
    let st : ReplaySessionState :=
      { session_id := counter, is_proof_state := false, repl_ids := [],
        request := request, materializing_servers := [] }
    ({ c with
        state_counter := counter,
        cache := dinsert c.cache counter (st.set_repl_id_for serverKey (some e)) },
     .ok counter)
  | _ =>
    ({ c with state_counter := counter },
     .error (.notImplementedError
       "Cannot store the session state for unsupported response."))

/-- Source: `ReplaySessionCache.remove` — `self._cache.pop(session_state_id, None)`. -/
def ReplaySessionCache.remove (c : ReplaySessionCache) (session_state_id : Int) :
    ReplaySessionCache :=
  { c with cache := dremove c.cache session_state_id }

/-- Loop body of `ReplaySessionCache.reload` over the cache entries in order:
clear the repl id for the target server, then, when not lazy, re-materialize;
a materialization failure aborts the iteration with the exception. -/
def reloadAux (run : Request → Response) (serverKey : String) (lazy : Bool) :
    List (Int × ReplaySessionState) →
    List (Int × ReplaySessionState) × List Request × Except PyError Unit
  | [] => ([], [], .ok ())
  | (k, st) :: rest =>
    let st1 := st.set_repl_id_for serverKey none
    if lazy then
      let r := reloadAux run serverKey lazy rest
      ((k, st1) :: r.1, r.2.1, r.2.2)
    else
      match materialize_state run serverKey st1 with
      | (st2, tr, .ok ()) =>
        let r := reloadAux run serverKey lazy rest
        ((k, st2) :: r.1, tr ++ r.2.1, r.2.2)
      | (st2, tr, .error e) => ((k, st2) :: rest, tr, .error e)

/-- Source: `ReplaySessionCache.reload` (sessioncache.py lines 242-256). -/
def ReplaySessionCache.reload (c : ReplaySessionCache) (run : Request → Response)
    (serverKey : String) :
    ReplaySessionCache × List Request × Except PyError Unit :=
  let r := reloadAux run serverKey c.lazy c.cache
  ({ c with cache := r.1 }, r.2.1, r.2.2)

/-- Source: `ReplaySessionCache.get_repl_id` (sessioncache.py lines 276-282):
return the cached id for this server, materializing first when it is absent.
A missing `session_state_id` raises `KeyError` (`self._cache[...]`). -/
def ReplaySessionCache.get_repl_id (c : ReplaySessionCache) (run : Request → Response)
    (serverKey : String) (session_state_id : Int) :
    ReplaySessionCache × List Request × Except PyError (Option Int) :=
  match dlookup c.cache session_state_id with
  | none => (c, [], .error (.keyError session_state_id))
  | some st =>
    match st.get_repl_id_for serverKey with
    | some r => (c, [], .ok (some r))
    | none =>
      match materialize_state run serverKey st with
      | (st1, tr, .ok ()) =>
        ({ c with cache := dinsert c.cache session_state_id st1 }, tr,
         .ok (st1.get_repl_id_for serverKey))
      | (st1, tr, .error e) =>
        ({ c with cache := dinsert c.cache session_state_id st1 }, tr, .error e)

/-! ## Pickle session cache

Source: `src/lean_interact/sessioncache.py` lines 285-411. -/

/-- Source: dataclass `PickleSessionState` (sessioncache.py lines 285-287):
fields `session_id`, `is_proof_state`, `repl_ids`, `pickle_file` — and no
others. -/
structure PickleSessionState where
  session_id : Int
  is_proof_state : Bool
  repl_ids : List (String × Option Int)
  pickle_file : String
deriving DecidableEq, Repr

/-- `PickleSessionState` declares no attribute named `repl_id` (its dict of
per-server ids is `repl_ids`), so the Python attribute access
`session_data.repl_id` performed at workspace.py lines 412 and 419 raises
`AttributeError`; the access is modelled by this always-failing function. -/
def PickleSessionState.repl_id_attr (_st : PickleSessionState) : Except PyError Int :=
  .error (.attributeError "PickleSessionState object has no attribute repl_id")

/-- Source: class `PickleSessionCache` (sessioncache.py lines 290-411):
`_cache : dict[int, PickleSessionState]`, `_state_counter` (starts at 0),
`_working_dir`. -/
structure PickleSessionCache where
  cache : List (Int × PickleSessionState)
  state_counter : Int
  working_dir : String
deriving DecidableEq, Repr

/-- Source: `PickleSessionCache.__init__`. -/
def mkPickleSessionCache (working_dir : String) : PickleSessionCache :=
  { cache := [], state_counter := 0, working_dir := working_dir }

/-- Little-endian decimal digits of a positive number (empty for zero),
fuel-based. -/
def decimalDigitsAux : Nat → Nat → List Char
  | 0, _ => []
  | _ + 1, 0 => []
  | fuel + 1, n + 1 => hexDigit ((n + 1) % 10) :: decimalDigitsAux fuel ((n + 1) / 10)

/-- Python decimal rendering of a nonnegative integer, as interpolated by an
f-string (`f"{id(request)}"`, `f"{process_id}"`). -/
def decimalRepr (n : Nat) : String :=
  if n = 0 then "0" else String.mk (decimalDigitsAux n n).reverse

/-- Source: the pickle-file naming in `PickleSessionCache.add` (sessioncache.py
lines 314-318): the hash key is the string
`request_{type(request).__name__}_{id(request)}` — the CPython object
identity of the request, not its content — and the file name appends the
owning process id.  `requestObjId` models `id(request)` and `processId`
models `os.getpid()`; both are runtime inputs of the call. -/
def pickleFilePathOf (working_dir : String) (request : Request)
    (requestObjId : Nat) (processId : Nat) : String :=
  let hash_key := "request_" ++ request.typeName ++ "_" ++ decimalRepr requestObjId
  working_dir ++ "/session_cache/" ++ sha256hex hash_key ++ "_" ++
    decimalRepr processId ++ ".olean"

/-- The pickle-file path of an `add` call on this cache. -/
def PickleSessionCache.pickle_file_path (c : PickleSessionCache) (request : Request)
    (requestObjId : Nat) (processId : Nat) : String :=
  pickleFilePathOf c.working_dir request requestObjId processId

/-- Source: `PickleSessionCache.add` (sessioncache.py lines 310-348).  The
counter is decremented first; a `PickleProofState`/`PickleEnvironment`
request is sent to the server (via the oracle `run`); a `LeanError` reply
raises `ValueError` with the cache unchanged apart from the burnt counter;
otherwise the new state is recorded with the server-local id of the original
response.  Returns the cache after the call, the requests issued, and the
outcome.  The `FileLock` around the file access is a cross-process artifact
guard with no effect on the in-process state. -/
def PickleSessionCache.add (c : PickleSessionCache) (run : Request → Response)
    (serverKey : String) (request : Request) (requestObjId processId : Nat)
    (response : Response) :
    PickleSessionCache × List Request × Except PyError Int :=
  let counter := c.state_counter - 1
  let pickle_file := c.pickle_file_path request requestObjId processId
  match response with
  | .proofStepResponse p =>
    let pickleReq := Request.pickleProofState p pickle_file
    match run pickleReq with
    | .leanError m =>
      ({ c with state_counter := counter }, [pickleReq],
       .error (.valueError
         ("Could not store the result in the session cache. The server returned an error: " ++ m)))
    | _ =>
      let st : PickleSessionState :=
        { session_id := counter, is_proof_state := true,
          repl_ids := [(serverKey, some p)], pickle_file := pickle_file }
      ({ c with state_counter := counter, cache := dinsert c.cache counter st },
       [pickleReq], .ok counter)
  | .commandResponse e =>
    let pickleReq := Request.pickleEnvironment e pickle_file
    match run pickleReq with
    | .leanError m =>
      ({ c with state_counter := counter }, [pickleReq],
       .error (.valueError
         ("Could not store the result in the session cache. The server returned an error: " ++ m)))
    | _ =>
      let st : PickleSessionState :=
        { session_id := counter, is_proof_state := false,
          repl_ids := [(serverKey, some e)], pickle_file := pickle_file }
      ({ c with state_counter := counter, cache := dinsert c.cache counter st },
       [pickleReq], .ok counter)
  | _ =>
    ({ c with state_counter := counter }, [],
     .error (.notImplementedError "Cannot pickle the session state for unsupported request."))

/-- Source: `PickleSessionCache.remove` (sessioncache.py lines 350-355); the
backing-file deletion is a file-system effect outside the model. -/
def PickleSessionCache.remove (c : PickleSessionCache) (session_state_id : Int) :
    PickleSessionCache :=
  { c with cache := dremove c.cache session_state_id }

/-- Source: `PickleSessionCache.clear` (sessioncache.py lines 392-395):
removes every entry in turn, ending with an empty cache dict. -/
def PickleSessionCache.clear (c : PickleSessionCache) : PickleSessionCache :=
  { c with cache := [] }

/-- Source: `session_id in cache` (`PickleSessionCache.__contains__`). -/
def PickleSessionCache.containsId (c : PickleSessionCache) (session_id : Int) : Bool :=
  (dlookup c.cache session_id).isSome

/-- Source: `PickleSessionCache.get_repl_id` (sessioncache.py lines 409-411):
it returns `self._get_state_repl_id(state, lean_server)` — the cached entry
for that server, `None` when absent — and, unlike the replay strategy, never
contacts any server (it has no materialization path, hence no oracle
parameter).  A missing `session_state_id` raises `KeyError`. -/
def PickleSessionCache.get_repl_id (c : PickleSessionCache) (serverKey : String)
    (session_state_id : Int) : Except PyError (Option Int) :=
  match dlookup c.cache session_state_id with
  | none => .error (.keyError session_state_id)
  | some st => .ok ((dlookup st.repl_ids serverKey).bind id)

/-! ## Workspace orchestrator

Source: `src/lean_interact/workspace.py`, class `LeanWorkspace`.  Servers are
Python objects; the workspace distinguishes the per-file `AutoLeanServer`s
(keyed by filename in `_file_servers`), the `_main_server`, and
caller-supplied explicit servers, so a server identity is one of those three
shapes.  The project file system (read by `_get_project_files` and
`_compute_file_hash`), the single shared subprocess oracle, and the external
dependency-graph extraction (`_extract_dependency_graph` shells out to the
`import-graph` tool; the spec places graph construction out of scope) are
bundled as the ambient `World`.  File contents are modelled as ASCII
strings. -/

/-- Identity of a server object as seen from the workspace. -/
inductive ServerId where
  | mainServer
  | fileServer (filename : String)
  | explicitServer (tag : String)
deriving DecidableEq, Repr

/-- The session-cache key of a server object (distinct objects map to
distinct keys, cf. `BaseSessionCache._get_server_key`). -/
def ServerId.key : ServerId → String
  | .mainServer => "server:main"
  | .fileServer f => "server:file:" ++ f
  | .explicitServer t => "server:explicit:" ++ t

/-- Observable side effects of a workspace call: a restart of a file server
(`AutoLeanServer.restart`) or a request forwarded to a server
(`server.run`). -/
inductive WsEvent where
  | restartServer (filename : String)
  | serverRun (server : ServerId) (request : Request)
deriving DecidableEq, Repr

/-- The externally supplied module dependency graph (`networkx.DiGraph` read
from the import-graph DOT file); an edge `(u, v)` points from importer `u`
to imported module `v`. -/
structure DiGraph where
  nodes : List String
  edges : List (String × String)
deriving DecidableEq, Repr

/-- Direct predecessors of `n`: modules with an edge into `n`. -/
def DiGraph.preds (g : DiGraph) (n : String) : List String :=
  (g.edges.filter (fun e => e.2 = n)).map Prod.fst

/-- Fuel-based breadth-first search backwards along edges; `visited` starts
at `[n]` and collects every node with a path to `n` (plus `n` itself). -/
def DiGraph.ancestorsAux (g : DiGraph) : Nat → List String → List String → List String
  | 0, _, visited => visited
  | _ + 1, [], visited => visited
  | fuel + 1, x :: frontier, visited =>
    let ps := (g.preds x).filter (fun m => !(visited.contains m))
    g.ancestorsAux fuel (frontier ++ ps) (visited ++ ps)

/-- `networkx.ancestors(g, n)`: all nodes having a path to `n`, excluding `n`
itself.  The fuel bounds the number of BFS steps: at most one initial
frontier element plus one per discovered node, each an edge endpoint. -/
def DiGraph.ancestors (g : DiGraph) (n : String) : List String :=
  (g.ancestorsAux (1 + g.nodes.length + 2 * g.edges.length) [n] [n]).filter
    (fun m => m ≠ n)

/-- `str.replace(old, new)` for single-character arguments (the only form the
workspace uses). -/
def replaceChar (s : String) (a b : Char) : String :=
  String.mk (s.data.map (fun c => if c = a then b else c))

/-- Source: workspace.py line 324 — `str(Path(file_path).with_suffix(""))
.replace("/", ".")` for a `.lean` file path: drop the `.lean` suffix and turn
path separators into dots. -/
def moduleNameOfPath (p : String) : String :=
  let cs := p.data
  let base :=
    if 5 ≤ cs.length ∧ cs.drop (cs.length - 5) = ".lean".data then
      cs.take (cs.length - 5)
    else cs
  replaceChar (String.mk base) '/' '.'

/-- Source: workspace.py line 336 — `dep.replace(".", "/") + ".lean"`. -/
def filePathOfModule (m : String) : String :=
  replaceChar m '.' '/' ++ ".lean"

/-- Source: `LeanWorkspace._compute_file_hash` (workspace.py lines 143-152):
SHA-256 hex digest of the file content, `""` for a missing file. -/
def computeFileHash (fs : List (String × String)) (file_path : String) : String :=
  match dlookup fs file_path with
  | none => ""
  | some content => sha256hex content

/-- Source: class `LeanWorkspace` state (workspace.py `__init__`): the file
servers (`_file_servers`, modelled by their key set), content fingerprints
(`_file_content_hashes`), pending-restart flags (`_needs_restart`), the
global `PickleSessionCache`, the session-ownership map
(`_session_server_map`), the dependency-caching switch and the cached graph.
Locks and the cache directory are process-level artifacts outside the
model. -/
structure LeanWorkspace where
  cache_dependencies : Bool
  file_servers : List String
  file_content_hashes : List (String × String)
  needs_restart : List (String × Bool)
  session_cache : PickleSessionCache
  session_server_map : List (Int × String)
  dependency_graph : Option DiGraph
deriving DecidableEq, Repr

/-- The ambient world of a workspace: the project file system (relative
`.lean` path to ASCII content), the behaviour of every server subprocess,
and the result of the external dependency-graph extraction (`none` models an
extraction failure). -/
structure World where
  fs : List (String × String)
  oracle : ServerId → Request → Response
  graph_extraction : Option DiGraph

/-- Source: `LeanWorkspace.__init__` (workspace.py lines 91-141). -/
def mkLeanWorkspace (config_working_dir : String) (cache_dependencies : Bool) :
    LeanWorkspace :=
  { cache_dependencies := cache_dependencies
    file_servers := []
    file_content_hashes := []
    needs_restart := []
    session_cache := mkPickleSessionCache config_working_dir
    session_server_map := []
    dependency_graph := none }

/-- Source: `LeanWorkspace._get_file_dependencies` (workspace.py lines
310-339): empty without caching or graph; otherwise the `networkx`
ancestors of the file's module, mapped back to file paths. -/
def LeanWorkspace.file_dependencies (ws : LeanWorkspace) (file_path : String) :
    List String :=
  match ws.dependency_graph, ws.cache_dependencies with
  | some g, true =>
    let module_name := moduleNameOfPath file_path
    if module_name ∈ g.nodes then (g.ancestors module_name).map filePathOfModule
    else []
  | _, _ => []

/-- Source: `LeanWorkspace._mark_dependent_files_for_restart` (workspace.py
lines 207-224): without a graph, mark every known file server; with one,
mark the changed files that have servers and every file server whose
dependency set meets the changed set. -/
def LeanWorkspace.mark_dependent_files_for_restart (ws : LeanWorkspace)
    (changed_files : List String) : LeanWorkspace :=
  if ¬ ws.cache_dependencies ∨ ws.dependency_graph = none then
    { ws with needs_restart :=
        ws.file_servers.foldl (fun m f => dinsert m f true) ws.needs_restart }
  else
    let needs1 := changed_files.foldl
      (fun m f => if f ∈ ws.file_servers then dinsert m f true else m) ws.needs_restart
    let needs2 := ws.file_servers.foldl
      (fun m f =>
        if ((ws.file_dependencies f).filter (fun d => changed_files.contains d)) ≠ [] then
          dinsert m f true
        else m)
      needs1
    { ws with needs_restart := needs2 }

/-- The per-file step of the change scan in `_check_project_changes`
(workspace.py lines 189-201): refresh the stored fingerprint and append the
file to the changed list when it is new or its hash differs. -/
def scanStep (fs : List (String × String)) (acc : List (String × String) × List String)
    (file_path : String) : List (String × String) × List String :=
  let current_hash := computeFileHash fs file_path
  match dlookup acc.1 file_path with
  | none => (dinsert acc.1 file_path current_hash, acc.2 ++ [file_path])
  | some h =>
    if h ≠ current_hash then (dinsert acc.1 file_path current_hash, acc.2 ++ [file_path])
    else acc

/-- The change scan over all current project files: updated fingerprint map
and the list of changed files. -/
def scan_project_files (fs : List (String × String))
    (hashes : List (String × String)) : List (String × String) × List String :=
  (fs.map Prod.fst).foldl (scanStep fs) (hashes, [])

/-- Source: `LeanWorkspace._check_project_changes` (workspace.py lines
169-205): drop fingerprints and restart flags of deleted files, rescan for
new/changed files, and mark dependents when anything changed.
`_get_project_files` is the key set of the ambient file system. -/
def LeanWorkspace.check_project_changes (ws : LeanWorkspace)
    (fs : List (String × String)) : LeanWorkspace :=
  let current_files := fs.map Prod.fst
  let previous_files := dkeys ws.file_content_hashes
  let deleted_files := previous_files.filter (fun f => !(current_files.contains f))
  let hashes1 := deleted_files.foldl dremove ws.file_content_hashes
  let needs1 := deleted_files.foldl dremove ws.needs_restart
  let scanned := scan_project_files fs hashes1
  let ws1 := { ws with file_content_hashes := scanned.1, needs_restart := needs1 }
  if scanned.2 = [] then ws1 else ws1.mark_dependent_files_for_restart scanned.2

/-- Source: `LeanWorkspace._get_session_server` (workspace.py lines 341-345). -/
def LeanWorkspace.get_session_server (ws : LeanWorkspace) (state_id : Option Int) :
    Option String :=
  match state_id with
  | none => none
  | some sid => if 0 ≤ sid then none else dlookup ws.session_server_map sid

/-- Python truthiness of `if server_filename:` — an empty string is falsy. -/
def truthyStr : Option String → Option String
  | some "" => none
  | some s => some s
  | none => none

/-- Source: `LeanWorkspace._route_to_session_server` (workspace.py lines
347-370): route to the owner of a negative `env`, else of a negative
`proofState`, else `"default"`. -/
def LeanWorkspace.route_to_session_server (ws : LeanWorkspace) (request : Request) :
    String :=
  let fromEnv :=
    match request.envAttr with
    | some e => if e < 0 then truthyStr (ws.get_session_server (some e)) else none
    | none => none
  match fromEnv with
  | some f => f
  | none =>
    let fromPs :=
      match request.proofStateAttr with
      | some p => if p < 0 then truthyStr (ws.get_session_server (some p)) else none
      | none => none
    match fromPs with
    | some f => f
    | none => "default"

/-- The test `x is not None and x < 0` on an optional id. -/
def isNegOpt : Option Int → Bool
  | some e => decide (e < 0)
  | none => false

/-- Source: `LeanWorkspace._resolve_session_ids` (workspace.py lines 394-422).
When the request carries a negative `env` or `proofState` that is present in
the session cache, the code reads `session_data.repl_id` — an attribute the
state class does not define (see `PickleSessionState.repl_id_attr`) — so the
substitution raises; a negative id absent from the cache is left in place. -/
def LeanWorkspace.resolve_session_ids (ws : LeanWorkspace) (request : Request) :
    Except PyError Request := do
  let env_id := request.envAttr
  let proof_state_id := request.proofStateAttr
  if isNegOpt env_id || isNegOpt proof_state_id then
    let request1 := request
    let request2 ←
      match env_id with
      | some e =>
        if e < 0 then
          match dlookup ws.session_cache.cache e with
          | some session_data => do
            let actual_env_id ← session_data.repl_id_attr
            pure (request1.withEnvAttr (some actual_env_id))
          | none => pure request1
        else pure request1
      | none => pure request1
    let request3 ←
      match proof_state_id with
      | some p =>
        if p < 0 then
          match dlookup ws.session_cache.cache p with
          | some session_data => do
            let actual_proof_state_id ← session_data.repl_id_attr
            pure (request2.withProofStateAttr (some actual_proof_state_id))
          | none => pure request2
        else pure request2
      | none => pure request2
    pure request3
  else
    pure request

/-- Source: `LeanWorkspace.restart_file_server` (workspace.py lines 431-443):
restart the file server when one exists and clear its flag. -/
def LeanWorkspace.restart_file_server (ws : LeanWorkspace) (filename : String) :
    LeanWorkspace × List WsEvent :=
  if filename ∈ ws.file_servers then
    ({ ws with needs_restart := dinsert ws.needs_restart filename false },
     [.restartServer filename])
  else (ws, [])

/-- Source: `LeanWorkspace._check_and_restart_if_needed` (workspace.py lines
424-429): when the flag is set, restart and then clear the flag. -/
def LeanWorkspace.check_and_restart_if_needed (ws : LeanWorkspace) (filename : String) :
    LeanWorkspace × List WsEvent :=
  if dlookup ws.needs_restart filename = some true then
    let r := ws.restart_file_server filename
    ({ r.1 with needs_restart := dinsert r.1.needs_restart filename false }, r.2)
  else (ws, [])

/-- Source: `LeanWorkspace._get_server_for_file` (workspace.py lines 226-234):
create the file server lazily, initializing its restart flag. -/
def LeanWorkspace.get_server_for_file (ws : LeanWorkspace) (filename : String) :
    LeanWorkspace :=
  if filename ∈ ws.file_servers then ws
  else
    { ws with
        file_servers := ws.file_servers ++ [filename]
        needs_restart := dinsert ws.needs_restart filename false }

/-- Source: `LeanWorkspace._add_to_workspace_session_cache` (workspace.py
lines 372-392): cache only `CommandResponse`/`ProofStepResponse`, record the
owning server filename for the new (negative) session id, and return the
response with its state id replaced by the session id. -/
def LeanWorkspace.add_to_workspace_session_cache (ws : LeanWorkspace)
    (run : Request → Response) (server_filename : String) (serverKey : String)
    (request : Request) (requestObjId processId : Nat) (response : Response) :
    LeanWorkspace × List Request × Except PyError Response :=
  match response with
  | .commandResponse e =>
    let r := ws.session_cache.add run serverKey request requestObjId processId
      (.commandResponse e)
    match r.2.2 with
    | .ok session_id =>
      ({ ws with
          session_cache := r.1
          session_server_map := dinsert ws.session_server_map session_id server_filename },
       r.2.1, .ok (.commandResponse session_id))
    | .error err => ({ ws with session_cache := r.1 }, r.2.1, .error err)
  | .proofStepResponse p =>
    let r := ws.session_cache.add run serverKey request requestObjId processId
      (.proofStepResponse p)
    match r.2.2 with
    | .ok session_id =>
      ({ ws with
          session_cache := r.1
          session_server_map := dinsert ws.session_server_map session_id server_filename },
       r.2.1, .ok (.proofStepResponse session_id))
    | .error err => ({ ws with session_cache := r.1 }, r.2.1, .error err)
  | r => (ws, [], .ok r)

/-- Tail of `LeanWorkspace.run` (workspace.py lines 666-679): forward the
request to the target server and, when asked and the response is not an
error, record it in the workspace session cache. -/
def LeanWorkspace.run_finish (ws : LeanWorkspace) (w : World) (filename : String)
    (target : ServerId) (request : Request) (requestObjId processId : Nat)
    (add_to_session_cache : Bool) :
    LeanWorkspace × List WsEvent × Except PyError Response :=
  let response := w.oracle target request
  let ev : List WsEvent := [.serverRun target request]
  if add_to_session_cache ∧ ¬ response.isLeanError then
    let r := ws.add_to_workspace_session_cache (w.oracle target) filename target.key
      request requestObjId processId response
    (r.1, ev ++ r.2.1.map (fun q => WsEvent.serverRun target q), r.2.2)
  else (ws, ev, .ok response)

/-- File-path to filename normalization in `LeanWorkspace.run` (workspace.py
lines 636-645): requests are modelled with project-relative paths, for which
both the `relative_to` branch and the `Path.name` fallback yield the path
itself. -/
def filenameOfPath (path : String) : String := path

/-- Source: `LeanWorkspace.run` (workspace.py lines 583-679).  With an
explicit `server`, session ids are resolved (for non-`FileCommand`s) and the
request forwarded there under the cache filename `"explicit_server"`.
Otherwise a `FileCommand` first triggers the project change scan, a
dependency-graph extraction attempt when caching is on and no graph is
cached (a failure turns caching off), the lazy restart of its file server,
and creation of that server; any other request is routed by its negative
session id (the main server when none), resolved, and forwarded. -/
def LeanWorkspace.run (ws : LeanWorkspace) (w : World) (request : Request)
    (requestObjId processId : Nat) (add_to_session_cache : Bool)
    (server : Option ServerId) :
    LeanWorkspace × List WsEvent × Except PyError Response :=
  match server with
  | some srv =>
    let resolved :=
      match request with
      | .fileCommand _ => Except.ok request
      | _ => ws.resolve_session_ids request
    match resolved with
    | .error e => (ws, [], .error e)
    | .ok request1 =>
      ws.run_finish w "explicit_server" srv request1 requestObjId processId
        add_to_session_cache
  | none =>
    match request with
    | .fileCommand path =>
      let ws1 := ws.check_project_changes w.fs
      let ws2 :=
        if ws1.cache_dependencies ∧ ws1.dependency_graph = none then
          match w.graph_extraction with
          | some g => { ws1 with dependency_graph := some g }
          | none => { ws1 with cache_dependencies := false }
        else ws1
      let filename := filenameOfPath path
      let r := ws2.check_and_restart_if_needed filename
      let ws4 := r.1.get_server_for_file filename
      let rf := ws4.run_finish w filename (.fileServer filename) (.fileCommand path)
        requestObjId processId add_to_session_cache
      (rf.1, r.2 ++ rf.2.1, rf.2.2)
    | _ =>
      let filename0 := ws.route_to_session_server request
      if filename0 = "default" then
        match ws.resolve_session_ids request with
        | .error e => (ws, [], .error e)
        | .ok request1 =>
          ws.run_finish w "main" .mainServer request1 requestObjId processId
            add_to_session_cache
      else
        let ws1 := ws.get_server_for_file filename0
        match ws1.resolve_session_ids request with
        | .error e => (ws1, [], .error e)
        | .ok request1 =>
          ws1.run_finish w filename0 (.fileServer filename0) request1 requestObjId
            processId add_to_session_cache

/-- Source: `LeanWorkspace.remove_from_session_cache` (workspace.py lines
463-473). -/
def LeanWorkspace.remove_from_session_cache (ws : LeanWorkspace)
    (session_state_id : Int) : LeanWorkspace :=
  { ws with
      session_cache := ws.session_cache.remove session_state_id
      session_server_map := dremove ws.session_server_map session_state_id }

/-- Source: `LeanWorkspace.clear_session_cache` (workspace.py lines 475-482). -/
def LeanWorkspace.clear_session_cache (ws : LeanWorkspace) : LeanWorkspace :=
  { ws with
      session_cache := ws.session_cache.clear
      session_server_map := [] }

/-- Source: `LeanWorkspace.invalidate_dependency_cache` (workspace.py lines
450-461). -/
def LeanWorkspace.invalidate_dependency_cache (ws : LeanWorkspace) : LeanWorkspace :=
  { ws with
      dependency_graph := none
      file_content_hashes := []
      needs_restart := []
      session_cache := ws.session_cache.clear
      session_server_map := [] }

/-- Source: `LeanWorkspace.close` (workspace.py lines 729-758): clear the
session cache and ownership map, kill every server, clear the remaining
per-file state. -/
def LeanWorkspace.close (ws : LeanWorkspace) : LeanWorkspace :=
  { ws with
      session_cache := ws.session_cache.clear
      session_server_map := []
      file_servers := []
      file_content_hashes := []
      needs_restart := [] }

/-- A workspace API call, for stating invariants over call sequences. -/
inductive WsOp where
  | runOp (request : Request) (requestObjId processId : Nat)
      (add_to_session_cache : Bool) (server : Option ServerId)
  | removeOp (session_state_id : Int)
  | clearOp
  | invalidateOp
  | closeOp

/-- Apply one workspace call, keeping only the resulting state. -/
def LeanWorkspace.applyOp (w : World) (ws : LeanWorkspace) : WsOp → LeanWorkspace
  | .runOp request objId pid addCache server => (ws.run w request objId pid addCache server).1
  | .removeOp sid => ws.remove_from_session_cache sid
  | .clearOp => ws.clear_session_cache
  | .invalidateOp => ws.invalidate_dependency_cache
  | .closeOp => ws.close

/-- Apply a sequence of workspace calls. -/
def LeanWorkspace.applyOps (w : World) (ws : LeanWorkspace) (ops : List WsOp) :
    LeanWorkspace :=
  ops.foldl (LeanWorkspace.applyOp w) ws

/-! ## Derived definitions used by the statements -/

/-- `isinstance(response, (CommandResponse, ProofStepResponse))`. -/
def Response.isStateResponse : Response → Bool
  | .commandResponse _ => true
  | .proofStepResponse _ => true
  | .leanError _ => false

/-- The server-local state id a response carries for a state of the given
kind (`proof_state` for proof states, `env` for environments), `none` when
the response is an error or of the wrong kind. -/
def stateResponseId : Bool → Response → Option Int
  | true, .proofStepResponse p => some p
  | false, .commandResponse e => some e
  | _, _ => none

/-- Little-endian decimal value of a digit string (leftmost entry is the
least significant digit). -/
def digitsVal : List Char → Nat
  | [] => 0
  | c :: rest => (c.toNat - 48) + 10 * digitsVal rest

/-- A sequence of `ReplaySessionCache.add` calls, collecting each outcome. -/
def ReplaySessionCache.addAll (c : ReplaySessionCache) :
    List (String × Request × Response) → ReplaySessionCache × List (Except PyError Int)
  | [] => (c, [])
  | (sk, req, resp) :: rest =>
    let r := c.add sk req resp
    let rr := r.1.addAll rest
    (rr.1, r.2 :: rr.2)

/-- One `PickleSessionCache.add` call's inputs. -/
structure PickleAddInput where
  serverKey : String
  request : Request
  requestObjId : Nat
  processId : Nat
  response : Response
deriving DecidableEq, Repr

/-- A sequence of `PickleSessionCache.add` calls, collecting each outcome. -/
def PickleSessionCache.addAll (c : PickleSessionCache) (run : Request → Response) :
    List PickleAddInput → PickleSessionCache × List (Except PyError Int)
  | [] => (c, [])
  | inp :: rest =>
    let r := c.add run inp.serverKey inp.request inp.requestObjId inp.processId inp.response
    let rr := r.1.addAll run rest
    (rr.1, r.2.2 :: rr.2)

/-- Success condition of one `PickleSessionCache.add` call against a cache
with the given working directory: the response carries a state id and the
server accepts the pickling request (the path does not depend on the
running counter, so the condition is per input). -/
def pickleAddOk (run : Request → Response) (working_dir : String)
    (inp : PickleAddInput) : Bool :=
  match inp.response with
  | .proofStepResponse p =>
    !(run (Request.pickleProofState p
        (pickleFilePathOf working_dir inp.request inp.requestObjId inp.processId))).isLeanError
  | .commandResponse e =>
    !(run (Request.pickleEnvironment e
        (pickleFilePathOf working_dir inp.request inp.requestObjId inp.processId))).isLeanError
  | .leanError _ => false

/-- The workspace invariant of claim C10: every session id recorded in the
session-to-server ownership map is present in the session cache. -/
def LeanWorkspace.session_map_consistent (ws : LeanWorkspace) : Prop :=
  ∀ sid ∈ dkeys ws.session_server_map, sid ∈ dkeys ws.session_cache.cache

/-- The inductive strengthening used to carry `session_map_consistent`
through call sequences: the ownership map additionally has no duplicate
keys (true of every Python dict, and preserved by the association-list
embedding of its operations). -/
def SessionInv (ws : LeanWorkspace) : Prop :=
  ws.session_map_consistent ∧ (dkeys ws.session_server_map).Nodup

/-! ### Concrete instances for witnesses and counterexamples -/

/-- A pickle cache holding one environment session `-1` created on the main
server with local id `5`. -/
def stateC1 : PickleSessionState :=
  { session_id := -1
    is_proof_state := false
    repl_ids := [("server:main", some 5)]
    pickle_file := "wd/f.olean" }

def cacheC1 : PickleSessionCache :=
  { cache := [(-1, stateC1)]
    state_counter := -1
    working_dir := "wd" }

/-- A workspace that has cached session `-1` on its main server. -/
def wsC1 : LeanWorkspace :=
  { cache_dependencies := false
    file_servers := []
    file_content_hashes := []
    needs_restart := []
    session_cache := cacheC1
    session_server_map := [(-1, "main")]
    dependency_graph := none }

/-- A world whose servers answer every request with environment 7. -/
def worldC1 : World :=
  { fs := []
    oracle := fun _ _ => .commandResponse 7
    graph_extraction := none }

/-- The dependency graph for the C2 witness: module `A` has a path to module
`B`, so file `B.lean` records `A.lean` among its dependencies
(`_get_file_dependencies` collects `networkx` ancestors); `C` is isolated. -/
def graphC2 : DiGraph :=
  { nodes := ["A", "B", "C"], edges := [("A", "B")] }

/-- Project contents for the C2 witness. -/
def fsC2 : List (String × String) :=
  [("A.lean", "def a := 1"), ("B.lean", "import A"), ("C.lean", "def c := 3")]

/-- The C2 witness world. -/
def worldC2 : World :=
  { fs := fsC2
    oracle := fun _ _ => .commandResponse 0
    graph_extraction := none }

/-- The C2 witness workspace: fingerprints are current for `B.lean` and
`C.lean` but stale for `A.lean`, servers exist for `B.lean` and `C.lean`,
nothing is marked for restart, and the dependency graph is cached. -/
def wsC2 : LeanWorkspace :=
  { cache_dependencies := true
    file_servers := ["B.lean", "C.lean"]
    file_content_hashes :=
      [("A.lean", "stale"), ("B.lean", sha256hex "import A"),
       ("C.lean", sha256hex "def c := 3")]
    needs_restart := [("B.lean", false), ("C.lean", false)]
    session_cache := mkPickleSessionCache "wd"
    session_server_map := []
    dependency_graph := some graphC2 }

/-! ## Theorems: supporting lemmas and the claims -/

theorem dkeys_nil {α β : Type} : dkeys ([] : List (α × β)) = [] := rfl

theorem dkeys_cons {α β : Type} (p : α × β) (m : List (α × β)) :
    dkeys (p :: m) = p.1 :: dkeys m := rfl

theorem dlookup_dinsert_self {α : Type} [DecidableEq α] {β : Type}
    (m : List (α × β)) (k : α) (v : β) : dlookup (dinsert m k v) k = some v := by
  induction m with
  | nil => simp [dinsert, dlookup]
  | cons hd tl ih =>
    by_cases h : hd.1 = k
    · simp [dinsert, dlookup, h]
    · simp only [dinsert, if_neg h, dlookup, ih]

theorem dlookup_dinsert_ne {α : Type} [DecidableEq α] {β : Type}
    (m : List (α × β)) (k a : α) (v : β) (h : a ≠ k) :
    dlookup (dinsert m k v) a = dlookup m a := by
  induction m with
  | nil =>
    simp only [dinsert, dlookup]
    rw [if_neg (fun hh => h hh.symm)]
  | cons hd tl ih =>
    by_cases hk : hd.1 = k
    · subst hk
      simp only [dinsert, if_pos rfl, dlookup]
      rw [if_neg (fun hh => h hh.symm), if_neg (fun hh => h hh.symm)]
    · by_cases ha : hd.1 = a
      · simp only [dinsert, if_neg hk, dlookup, if_pos ha]
      · simp only [dinsert, if_neg hk, dlookup, if_neg ha, ih]

theorem mem_dkeys_of_dlookup {α : Type} [DecidableEq α] {β : Type}
    {m : List (α × β)} {a : α} {v : β} (h : dlookup m a = some v) : a ∈ dkeys m := by
  induction m with
  | nil => simp [dlookup] at h
  | cons hd tl ih =>
    rw [dkeys_cons]
    by_cases hk : hd.1 = a
    · exact hk ▸ List.mem_cons_self _ _
    · simp only [dlookup, if_neg hk] at h
      exact List.mem_cons_of_mem _ (ih h)

theorem dlookup_isSome_of_mem_dkeys {α : Type} [DecidableEq α] {β : Type}
    {m : List (α × β)} {a : α} (h : a ∈ dkeys m) : (dlookup m a).isSome := by
  induction m with
  | nil => simp [dkeys_nil] at h
  | cons hd tl ih =>
    by_cases hk : hd.1 = a
    · simp [dlookup, hk]
    · rw [dkeys_cons] at h
      rcases List.mem_cons.mp h with h | h
      · exact absurd h.symm hk
      · simp only [dlookup, if_neg hk]
        exact ih h

theorem mem_dkeys_dinsert {α : Type} [DecidableEq α] {β : Type}
    (m : List (α × β)) (k a : α) (v : β) :
    a ∈ dkeys (dinsert m k v) ↔ a = k ∨ a ∈ dkeys m := by
  induction m with
  | nil => simp [dinsert, dkeys]
  | cons hd tl ih =>
    by_cases hk : hd.1 = k
    · subst hk
      simp [dinsert, dkeys_cons, List.mem_cons]
    · simp only [dinsert, if_neg hk, dkeys_cons, List.mem_cons, ih]
      tauto

theorem mem_dkeys_dremove {α : Type} [DecidableEq α] {β : Type}
    {m : List (α × β)} {k a : α} (h : a ∈ dkeys (dremove m k)) : a ∈ dkeys m := by
  induction m with
  | nil => simpa [dremove] using h
  | cons hd tl ih =>
    rw [dkeys_cons]
    by_cases hk : hd.1 = k
    · rw [dremove, if_pos hk] at h
      exact List.mem_cons_of_mem _ h
    · rw [dremove, if_neg hk, dkeys_cons] at h
      rcases List.mem_cons.mp h with h | h
      · exact h ▸ List.mem_cons_self _ _
      · exact List.mem_cons_of_mem _ (ih h)

set_option maxRecDepth 400000 in
/-- Self-check of the SHA-256 embedding against the FIPS 180 test vector. -/
theorem sha256hex_abc :
    sha256hex "abc" = "ba7816bf8f01cfea414140de5dae2223b00361a396177a9cb410ff61f20015ad" := by
  rfl

theorem dlookup_dremove_ne {α : Type} [DecidableEq α] {β : Type}
    (m : List (α × β)) (k a : α) (h : a ≠ k) :
    dlookup (dremove m k) a = dlookup m a := by
  induction m with
  | nil => rfl
  | cons hd tl ih =>
    by_cases hk : hd.1 = k
    · rw [dremove, if_pos hk, dlookup, if_neg (fun hh => h (hh.symm.trans hk))]
    · by_cases ha : hd.1 = a
      · rw [dremove, if_neg hk, dlookup, if_pos ha, dlookup, if_pos ha]
      · rw [dremove, if_neg hk, dlookup, if_neg ha, dlookup, if_neg ha, ih]

theorem dlookup_foldl_dremove_not_mem {α : Type} [DecidableEq α] {β : Type}
    (L : List α) (m : List (α × β)) (a : α) (h : a ∉ L) :
    dlookup (L.foldl dremove m) a = dlookup m a := by
  induction L generalizing m with
  | nil => rfl
  | cons x rest ih =>
    have hx : a ≠ x := fun hh => h (hh ▸ List.mem_cons_self x rest)
    have hrest : a ∉ rest := fun hh => h (List.mem_cons_of_mem x hh)
    rw [List.foldl_cons, ih _ hrest, dlookup_dremove_ne _ _ _ hx]

theorem dlookup_map_snd {α : Type} [DecidableEq α] {β γ : Type} (f : β → γ)
    (m : List (α × β)) (a : α) :
    dlookup (m.map (fun p => (p.1, f p.2))) a = (dlookup m a).map f := by
  induction m with
  | nil => rfl
  | cons hd tl ih =>
    by_cases h : hd.1 = a <;> simp [dlookup, h, ih]

theorem dkeys_map_snd {α β γ : Type} (f : β → γ) (m : List (α × β)) :
    dkeys (m.map (fun p => (p.1, f p.2))) = dkeys m := by
  induction m with
  | nil => rfl
  | cons hd tl ih => simp [dkeys, ih]

/-- Marking fold with a per-element condition: the flag of `f` reads `true`
exactly when some listed element equals `f` and satisfies the condition;
otherwise the map is untouched at `f`. -/
theorem dlookup_foldl_cond_mark (P : String → Prop) [DecidablePred P] (L : List String)
    (m : List (String × Bool)) (f : String) :
    dlookup (L.foldl (fun acc x => if P x then dinsert acc x true else acc) m) f =
      if f ∈ L ∧ P f then some true else dlookup m f := by
  induction L generalizing m with
  | nil => simp
  | cons x rest ih =>
    rw [List.foldl_cons, ih]
    by_cases hfr : f ∈ rest ∧ P f
    · rw [if_pos hfr, if_pos ⟨List.mem_cons_of_mem x hfr.1, hfr.2⟩]
    · rw [if_neg hfr]
      by_cases hfx : f = x
      · subst hfx
        by_cases hp : P f
        · rw [if_pos hp, if_pos ⟨List.mem_cons_self f rest, hp⟩, dlookup_dinsert_self]
        · rw [if_neg hp, if_neg (fun hh => hp hh.2)]
      · have hnotin : ¬ (f ∈ x :: rest ∧ P f) := by
          intro hh
          rcases List.mem_cons.mp hh.1 with h1 | h1
          · exact hfx h1
          · exact hfr ⟨h1, hh.2⟩
        rw [if_neg hnotin]
        by_cases hp : P x
        · rw [if_pos hp, dlookup_dinsert_ne _ _ _ _ hfx]
        · rw [if_neg hp]

/-- Unconditional marking fold (the graph-free fallback). -/
theorem dlookup_foldl_mark (L : List String) (m : List (String × Bool)) (f : String) :
    dlookup (L.foldl (fun acc x => dinsert acc x true) m) f =
      if f ∈ L then some true else dlookup m f := by
  have h := dlookup_foldl_cond_mark (fun _ => True) L m f
  simpa using h

theorem setDiscard_setAdd (l : List String) (x : String) (h : x ∉ l) :
    setDiscard (setAdd l x) x = l := by
  simp [setAdd, setDiscard, h]

theorem hexDigit_toNat_of_lt10 (k : Nat) (h : k < 10) : (hexDigit k).toNat = 48 + k := by
  interval_cases k <;> decide

theorem digitsVal_decimalDigitsAux :
    ∀ fuel n, n ≤ fuel → digitsVal (decimalDigitsAux fuel n) = n := by
  intro fuel
  induction fuel with
  | zero =>
    intro n hn
    have h0 : n = 0 := by omega
    subst h0
    rfl
  | succ f ih =>
    intro n hn
    match n with
    | 0 => rfl
    | m + 1 =>
      have hdiv : (m + 1) / 10 ≤ f := by omega
      rw [decimalDigitsAux, digitsVal, ih _ hdiv,
        hexDigit_toNat_of_lt10 ((m + 1) % 10) (by omega)]
      omega

theorem decimalRepr_inj : ∀ m n : Nat, decimalRepr m = decimalRepr n → m = n := by
  have key : ∀ k : Nat,
      digitsVal ((if k = 0 then ['0'] else (decimalDigitsAux k k).reverse).reverse) = k := by
    intro k
    by_cases hk : k = 0
    · subst hk; rfl
    · rw [if_neg hk, List.reverse_reverse, digitsVal_decimalDigitsAux k k (le_refl k)]
  intro m n h
  have hmk : String.mk (if m = 0 then ['0'] else (decimalDigitsAux m m).reverse) =
      String.mk (if n = 0 then ['0'] else (decimalDigitsAux n n).reverse) := by
    by_cases hm : m = 0 <;> by_cases hn : n = 0
    · simp [hm, hn]
    · simpa [decimalRepr, hm, hn] using h
    · simpa [decimalRepr, hm, hn] using h
    · simpa [decimalRepr, hm, hn] using h
  have hdata := congrArg String.data hmk
  simp only [String.data] at hdata
  calc m = digitsVal ((if m = 0 then ['0'] else (decimalDigitsAux m m).reverse).reverse) :=
        (key m).symm
    _ = digitsVal ((if n = 0 then ['0'] else (decimalDigitsAux n n).reverse).reverse) := by
        rw [hdata]
    _ = n := key n

theorem length_toHex32 (x : Nat) : (toHex32 x).length = 8 := by
  simp [toHex32]

theorem sha256hex_data_length (s : String) : (sha256hex s).data.length = 64 := by
  unfold sha256hex
  simp [length_toHex32]

theorem reloadAux_lazy (run : Request → Response) (sk : String) :
    ∀ l, reloadAux run sk true l =
      (l.map (fun p => (p.1, p.2.set_repl_id_for sk none)), [], .ok ()) := by
  intro l
  induction l with
  | nil => rfl
  | cons hd tl ih =>
    obtain ⟨k, st⟩ := hd
    simp [reloadAux, ih]

theorem materialize_state_not_runtimeError (run : Request → Response) (sk : String)
    (st : ReplaySessionState) (h : sk ∉ st.materializing_servers) (m : String) :
    (materialize_state run sk st).2.2 ≠ .error (.runtimeError m) := by
  unfold materialize_state
  cases hrep : st.get_repl_id_for sk with
  | some r => simp
  | none =>
    rw [if_neg h]
    cases hresp : run st.request with
    | leanError s => simp
    | commandResponse e => by_cases hps : st.is_proof_state <;> simp [hps]
    | proofStepResponse p => by_cases hps : st.is_proof_state <;> simp [hps]

theorem materialize_state_ok_of (run : Request → Response) (sk : String)
    (st : ReplaySessionState) (fresh : Int)
    (h1 : st.get_repl_id_for sk = none) (h2 : sk ∉ st.materializing_servers)
    (h3 : stateResponseId st.is_proof_state (run st.request) = some fresh) :
    materialize_state run sk st =
      (st.set_repl_id_for sk (some fresh), [st.request], .ok ()) := by
  obtain ⟨sid, ips, rids, req, ms⟩ := st
  dsimp only at h1 h2 h3 ⊢
  unfold materialize_state
  rw [show (ReplaySessionState.mk sid ips rids req ms).get_repl_id_for sk = none from h1]
  dsimp only
  rw [if_neg h2]
  have hrestore : setDiscard (setAdd ms sk) sk = ms := setDiscard_setAdd _ _ h2
  cases hresp : run req with
  | leanError s =>
    rw [hresp] at h3
    cases ips <;> simp [stateResponseId] at h3
  | commandResponse e =>
    rw [hresp] at h3
    cases ips
    · simp [stateResponseId] at h3
      simp [hrestore, h3]
    · simp [stateResponseId] at h3
  | proofStepResponse p =>
    rw [hresp] at h3
    cases ips
    · simp [stateResponseId] at h3
    · simp [stateResponseId] at h3
      simp [hrestore, h3]

theorem materialize_state_fail_of (run : Request → Response) (sk : String)
    (st : ReplaySessionState)
    (h1 : st.get_repl_id_for sk = none) (h2 : sk ∉ st.materializing_servers)
    (h3 : stateResponseId st.is_proof_state (run st.request) = none) :
    ∃ msg, materialize_state run sk st = (st, [st.request], .error (.valueError msg)) := by
  obtain ⟨sid, ips, rids, req, ms⟩ := st
  dsimp only at h1 h2 h3 ⊢
  unfold materialize_state
  rw [show (ReplaySessionState.mk sid ips rids req ms).get_repl_id_for sk = none from h1]
  dsimp only
  rw [if_neg h2]
  have hrestore : setDiscard (setAdd ms sk) sk = ms := setDiscard_setAdd _ _ h2
  cases hresp : run req with
  | leanError s =>
    exact ⟨"Could not replay the cached state. The server returned an error: " ++ s,
      by simp [hrestore]⟩
  | commandResponse e =>
    rw [hresp] at h3
    cases ips
    · simp [stateResponseId] at h3
    · exact ⟨"Could not replay the cached proof state. The server returned an unexpected response.",
        by simp [hrestore]⟩
  | proofStepResponse p =>
    rw [hresp] at h3
    cases ips
    · exact ⟨"Could not replay the cached environment. The server returned an unexpected response.",
        by simp [hrestore]⟩
    · simp [stateResponseId] at h3

theorem get_set_repl_id_self (st : ReplaySessionState) (sk : String) (v : Option Int) :
    (st.set_repl_id_for sk v).get_repl_id_for sk = v := by
  simp [ReplaySessionState.set_repl_id_for, ReplaySessionState.get_repl_id_for,
    dlookup_dinsert_self]

/-- C5: on a lazy `ReplaySessionCache`, `reload` for a server sets that
server's local-id entry to `None` for every cached state while keeping the
set of handles, each state's `session_id`, `is_proof_state` flag and stored
creating request unchanged, leaving entries recorded for other servers
untouched, and issuing no subprocess call. -/
theorem claim_C5 (c : ReplaySessionCache) (run : Request → Response) (sk : String)
    (hlazy : c.lazy = true) :
    (c.reload run sk).2.1 = [] ∧ (c.reload run sk).2.2 = .ok () ∧
    dkeys (c.reload run sk).1.cache = dkeys c.cache ∧
    (∀ sid st, dlookup c.cache sid = some st →
      ∃ st1, dlookup (c.reload run sk).1.cache sid = some st1 ∧
        st1.session_id = st.session_id ∧
        st1.is_proof_state = st.is_proof_state ∧
        st1.request = st.request ∧
        dlookup st1.repl_ids sk = some none ∧
        (∀ sk2, sk2 ≠ sk → dlookup st1.repl_ids sk2 = dlookup st.repl_ids sk2)) := by
  unfold ReplaySessionCache.reload
  rw [hlazy, reloadAux_lazy]
  refine ⟨rfl, rfl,
    dkeys_map_snd (fun st => st.set_repl_id_for sk none) c.cache, ?_⟩
  intro sid st hst
  refine ⟨st.set_repl_id_for sk none, ?_, rfl, rfl, rfl, ?_, ?_⟩
  · have h := dlookup_map_snd (fun st => st.set_repl_id_for sk none) c.cache sid
    rw [hst] at h
    simpa using h
  · simp [ReplaySessionState.set_repl_id_for, dlookup_dinsert_self]
  · intro sk2 hne
    simp [ReplaySessionState.set_repl_id_for, dlookup_dinsert_ne _ _ _ _ hne]

/-- Witness for C5 at a concrete lazy cache with one state holding entries
for two servers. -/
theorem claim_C5_witness :
    (ReplaySessionCache.mk
        [(-1, ⟨-1, false, [("k1", some 4), ("k2", some 7)], .command "x" none, []⟩)]
        (-1) true).lazy = true ∧
    (((ReplaySessionCache.mk
        [(-1, ⟨-1, false, [("k1", some 4), ("k2", some 7)], .command "x" none, []⟩)]
        (-1) true).reload (fun _ => .commandResponse 9) "k1").2.1 = [] ∧
     ((ReplaySessionCache.mk
        [(-1, ⟨-1, false, [("k1", some 4), ("k2", some 7)], .command "x" none, []⟩)]
        (-1) true).reload (fun _ => .commandResponse 9) "k1").2.2 = .ok () ∧
     dkeys ((ReplaySessionCache.mk
        [(-1, ⟨-1, false, [("k1", some 4), ("k2", some 7)], .command "x" none, []⟩)]
        (-1) true).reload (fun _ => .commandResponse 9) "k1").1.cache =
       dkeys (ReplaySessionCache.mk
        [(-1, ⟨-1, false, [("k1", some 4), ("k2", some 7)], .command "x" none, []⟩)]
        (-1) true).cache ∧
     (∀ sid st,
       dlookup (ReplaySessionCache.mk
         [(-1, ⟨-1, false, [("k1", some 4), ("k2", some 7)], .command "x" none, []⟩)]
         (-1) true).cache sid = some st →
       ∃ st1, dlookup ((ReplaySessionCache.mk
           [(-1, ⟨-1, false, [("k1", some 4), ("k2", some 7)], .command "x" none, []⟩)]
           (-1) true).reload (fun _ => .commandResponse 9) "k1").1.cache sid = some st1 ∧
         st1.session_id = st.session_id ∧
         st1.is_proof_state = st.is_proof_state ∧
         st1.request = st.request ∧
         dlookup st1.repl_ids "k1" = some none ∧
         (∀ sk2, sk2 ≠ "k1" → dlookup st1.repl_ids sk2 = dlookup st.repl_ids sk2))) :=
  ⟨rfl, claim_C5 _ (fun _ => .commandResponse 9) "k1" rfl⟩

/-- C6: a second materialization of a handle on a server for which a
materialization is already in progress fails with the re-entrancy
`RuntimeError` and issues no duplicate replay call, while a materialization
on a server not in the guard set is never rejected with a `RuntimeError`. -/
theorem claim_C6 :
    (∀ (run : Request → Response) (sk : String) (st : ReplaySessionState),
      sk ∈ st.materializing_servers → st.get_repl_id_for sk = none →
      materialize_state run sk st =
        (st, [], .error (.runtimeError ("Session state " ++ toString st.session_id ++
          " is already being materialized.")))) ∧
    (∀ (run : Request → Response) (sk2 : String) (st : ReplaySessionState),
      sk2 ∉ st.materializing_servers → ∀ m : String,
      (materialize_state run sk2 st).2.2 ≠ .error (.runtimeError m)) := by
  constructor
  · intro run sk st hin hnone
    simp [materialize_state, hnone, hin]
  · intro run sk2 st hout m
    exact materialize_state_not_runtimeError run sk2 st hout m

/-- Witness for C6: server `k1` is mid-materialization for the state, `k2`
is not. -/
theorem claim_C6_witness :
    ("k1" ∈ (⟨-5, false, [], .command "x" none, ["k1"]⟩ :
        ReplaySessionState).materializing_servers ∧
     (⟨-5, false, [], .command "x" none, ["k1"]⟩ :
        ReplaySessionState).get_repl_id_for "k1" = none ∧
     materialize_state (fun _ => .commandResponse 9) "k1"
        ⟨-5, false, [], .command "x" none, ["k1"]⟩ =
       (⟨-5, false, [], .command "x" none, ["k1"]⟩, [],
        .error (.runtimeError ("Session state " ++
          toString (⟨-5, false, [], .command "x" none, ["k1"]⟩ :
            ReplaySessionState).session_id ++ " is already being materialized.")))) ∧
    ((materialize_state (fun _ => .commandResponse 9) "k2"
        ⟨-5, false, [], .command "x" none, ["k1"]⟩).2.2 ≠
      .error (.runtimeError "boom")) :=
  ⟨⟨by decide, by decide,
    claim_C6.1 (fun _ => .commandResponse 9) "k1" _ (by decide) (by decide)⟩,
   claim_C6.2 (fun _ => .commandResponse 9) "k2" _ (by decide) "boom"⟩

/-- C9: a failed materialization (error reply or unexpected response kind)
leaves the state exactly as it was — the re-entrancy guard is released and
the server's local-id entry stays unset — raises a `ValueError`, and a later
materialization attempt of the same handle on the same server is not
rejected as re-entrant. -/
theorem claim_C9 (run : Request → Response) (sk : String) (st : ReplaySessionState)
    (h1 : st.get_repl_id_for sk = none) (h2 : sk ∉ st.materializing_servers)
    (h3 : stateResponseId st.is_proof_state (run st.request) = none) :
    (materialize_state run sk st).1 = st ∧
    (∃ m, (materialize_state run sk st).2.2 = .error (.valueError m)) ∧
    (materialize_state run sk st).1.get_repl_id_for sk = none ∧
    (∀ (run2 : Request → Response) (m : String),
      (materialize_state run2 sk (materialize_state run sk st).1).2.2 ≠
        .error (.runtimeError m)) := by
  obtain ⟨msg, hm⟩ := materialize_state_fail_of run sk st h1 h2 h3
  rw [hm]
  exact ⟨rfl, ⟨msg, rfl⟩, h1,
    fun run2 m => materialize_state_not_runtimeError run2 sk st h2 m⟩

/-- Witness for C9: the server rejects the replay with an error reply. -/
theorem claim_C9_witness :
    ((⟨-3, false, [], .command "x" none, []⟩ :
        ReplaySessionState).get_repl_id_for "k1" = none ∧
     "k1" ∉ (⟨-3, false, [], .command "x" none, []⟩ :
        ReplaySessionState).materializing_servers) ∧
    ((materialize_state (fun _ => .leanError "bad") "k1"
        ⟨-3, false, [], .command "x" none, []⟩).1 =
      ⟨-3, false, [], .command "x" none, []⟩ ∧
     (∃ m, (materialize_state (fun _ => .leanError "bad") "k1"
        ⟨-3, false, [], .command "x" none, []⟩).2.2 = .error (.valueError m)) ∧
     (materialize_state (fun _ => .leanError "bad") "k1"
        ⟨-3, false, [], .command "x" none, []⟩).1.get_repl_id_for "k1" = none ∧
     (∀ (run2 : Request → Response) (m : String),
       (materialize_state run2 "k1"
         (materialize_state (fun _ => .leanError "bad") "k1"
           ⟨-3, false, [], .command "x" none, []⟩).1).2.2 ≠
         .error (.runtimeError m))) :=
  ⟨⟨by decide, by decide⟩,
   claim_C9 (fun _ => .leanError "bad") "k1" _ (by decide) (by decide) (by decide)⟩

/-- C3 (amended): `ReplaySessionCache.get_repl_id` returns the cached local
id with zero subprocess calls when an entry for the server is present, and
otherwise materializes it by re-sending the stored creating request to that
server and recording the fresh local id; `PickleSessionCache.get_repl_id`,
by contrast, performs no materialization at all — it returns the cached
entry for that server (`None` when absent); for the pickle strategy the
deserialize-state request is sent by `reload`, not by `get_repl_id`. -/
theorem claim_C3_amended :
    (∀ (c : ReplaySessionCache) (run : Request → Response) (sk : String) (sid : Int)
       (st : ReplaySessionState) (r : Int),
      dlookup c.cache sid = some st → st.get_repl_id_for sk = some r →
      c.get_repl_id run sk sid = (c, [], .ok (some r))) ∧
    (∀ (c : ReplaySessionCache) (run : Request → Response) (sk : String) (sid : Int)
       (st : ReplaySessionState) (fresh : Int),
      dlookup c.cache sid = some st → st.get_repl_id_for sk = none →
      sk ∉ st.materializing_servers →
      stateResponseId st.is_proof_state (run st.request) = some fresh →
      c.get_repl_id run sk sid =
        ({ c with cache := dinsert c.cache sid (st.set_repl_id_for sk (some fresh)) },
         [st.request], .ok (some fresh))) ∧
    (∀ (c : PickleSessionCache) (sk : String) (sid : Int) (st : PickleSessionState),
      dlookup c.cache sid = some st →
      c.get_repl_id sk sid = .ok ((dlookup st.repl_ids sk).bind id)) := by
  refine ⟨?_, ?_, ?_⟩
  · intro c run sk sid st r hst hr
    simp [ReplaySessionCache.get_repl_id, hst, hr]
  · intro c run sk sid st fresh hst hnone hout hresp
    have hmat := materialize_state_ok_of run sk st fresh hnone hout hresp
    simp [ReplaySessionCache.get_repl_id, hst, hnone, hmat, get_set_repl_id_self]
  · intro c sk sid st hst
    simp [PickleSessionCache.get_repl_id, hst]

/-- Counterexample to C3 as stated: the pickle strategy's `get_repl_id` does
not materialize.  The cache below holds state `-1` with a stored artifact
and a local id recorded only for server `server:file:A`; resolving it
against server `server:main` returns `None` — no deserialize-state request
is sent (the function takes no server oracle) and no fresh local id is
recorded, contradicting the claimed Pickle materialization behaviour. -/
theorem claim_C3_counterexample :
    (PickleSessionCache.mk
        [(-1, ⟨-1, false, [("server:file:A", some 4)], "wd/f.olean"⟩)] (-1) "wd"
      ).get_repl_id "server:main" (-1) = .ok none := by
  decide

/-- Witness for C3 (amended): a cache hit returns the id with no calls, a
miss replays the stored request once, and the pickle lookup returns the
cached entry. -/
theorem claim_C3_witness :
    (dlookup (ReplaySessionCache.mk
        [(-1, ⟨-1, false, [("k1", some 4)], .command "x" none, []⟩)] (-1) true).cache
        (-1) = some (⟨-1, false, [("k1", some 4)], .command "x" none, []⟩ :
          ReplaySessionState) ∧
     (ReplaySessionCache.mk
        [(-1, ⟨-1, false, [("k1", some 4)], .command "x" none, []⟩)] (-1) true
      ).get_repl_id (fun _ => .commandResponse 9) "k1" (-1) =
       (ReplaySessionCache.mk
          [(-1, ⟨-1, false, [("k1", some 4)], .command "x" none, []⟩)] (-1) true,
        [], .ok (some 4))) ∧
    ((ReplaySessionCache.mk
        [(-1, ⟨-1, false, [("k1", some 4)], .command "x" none, []⟩)] (-1) true
      ).get_repl_id (fun _ => .commandResponse 9) "k2" (-1) =
       (ReplaySessionCache.mk
          [(-1, ⟨-1, false, [("k1", some 4), ("k2", some 9)], .command "x" none, []⟩)]
          (-1) true,
        [.command "x" none], .ok (some 9))) ∧
    ((PickleSessionCache.mk [(-1, ⟨-1, false, [("k1", some 5)], "f.olean"⟩)] (-1) "wd"
      ).get_repl_id "k1" (-1) = .ok (some 5)) :=
  ⟨⟨by decide,
    claim_C3_amended.1 _ (fun _ => .commandResponse 9) "k1" (-1)
      (⟨-1, false, [("k1", some 4)], .command "x" none, []⟩ : ReplaySessionState) 4
      (by decide) (by decide)⟩,
   by
    rw [claim_C3_amended.2.1 _ (fun _ => .commandResponse 9) "k2" (-1)
      ⟨-1, false, [("k1", some 4)], .command "x" none, []⟩ 9
      (by decide) (by decide) (by decide) (by decide)]
    decide,
   by
    rw [claim_C3_amended.2.2 _ "k1" (-1) ⟨-1, false, [("k1", some 5)], "f.olean"⟩
      (by decide)]
    decide⟩

theorem getD_map_range {α : Type} (f : Nat → α) (n i : Nat) (h : i < n) (d : α) :
    ((List.range n).map f).getD i d = f i := by
  simp [List.getD_eq_getElem?_getD, List.getElem?_map, List.getElem?_range h]

theorem replay_addAll_spec :
    ∀ (inputs : List (String × Request × Response)) (c : ReplaySessionCache),
      (∀ inp ∈ inputs, inp.2.2.isStateResponse = true) →
      (c.addAll inputs).1.state_counter = c.state_counter - inputs.length ∧
      (c.addAll inputs).2 =
        (List.range inputs.length).map (fun i => .ok (c.state_counter - (i + 1))) := by
  intro inputs
  induction inputs with
  | nil =>
    intro c h
    exact ⟨by simp [ReplaySessionCache.addAll], by simp [ReplaySessionCache.addAll]⟩
  | cons inp rest ih =>
    intro c hall
    obtain ⟨sk, req, resp⟩ := inp
    have hresp := hall (sk, req, resp) (List.mem_cons_self _ _)
    have hrest : ∀ x ∈ rest, x.2.2.isStateResponse = true :=
      fun x hx => hall x (List.mem_cons_of_mem _ hx)
    have key : ∀ (cadd : ReplaySessionCache),
        cadd.state_counter = c.state_counter - 1 →
        (cadd.addAll rest).1.state_counter =
          c.state_counter - ((sk, req, resp) :: rest).length ∧
        (Except.ok (c.state_counter - 1) : Except PyError Int) :: (cadd.addAll rest).2 =
          (List.range ((sk, req, resp) :: rest).length).map
            (fun i => .ok (c.state_counter - (i + 1))) := by
      intro cadd hcnt
      obtain ⟨ihc, ihl⟩ := ih cadd hrest
      constructor
      · rw [ihc, hcnt, List.length_cons]
        push_cast
        ring
      · rw [ihl, hcnt, List.length_cons, List.range_succ_eq_map, List.map_cons,
          List.map_map]
        refine congrArg₂ List.cons ?_ ?_
        · norm_num
        · refine List.map_congr_left ?_
          intro i hi
          simp only [Function.comp_apply]
          congr 1
          push_cast
          ring
    cases resp with
    | leanError m => exact absurd hresp (by simp [Response.isStateResponse])
    | commandResponse e => exact key (c.add sk req (.commandResponse e)).1 rfl
    | proofStepResponse p => exact key (c.add sk req (.proofStepResponse p)).1 rfl

theorem pickle_add_ok_shape (c : PickleSessionCache) (run : Request → Response)
    (sk : String) (req : Request) (objId pid : Nat) (resp : Response)
    (h : pickleAddOk run c.working_dir ⟨sk, req, objId, pid, resp⟩ = true) :
    (c.add run sk req objId pid resp).2.2 = .ok (c.state_counter - 1) ∧
    (c.add run sk req objId pid resp).1.state_counter = c.state_counter - 1 ∧
    (c.add run sk req objId pid resp).1.working_dir = c.working_dir := by
  cases resp with
  | leanError m => simp [pickleAddOk] at h
  | commandResponse e =>
    simp only [pickleAddOk] at h
    unfold PickleSessionCache.add
    simp only [PickleSessionCache.pickle_file_path]
    cases hrr : run (Request.pickleEnvironment e (pickleFilePathOf c.working_dir req objId pid)) with
    | leanError m => rw [hrr] at h; simp [Response.isLeanError] at h
    | commandResponse e2 => simp [hrr]
    | proofStepResponse p2 => simp [hrr]
  | proofStepResponse p =>
    simp only [pickleAddOk] at h
    unfold PickleSessionCache.add
    simp only [PickleSessionCache.pickle_file_path]
    cases hrr : run (Request.pickleProofState p (pickleFilePathOf c.working_dir req objId pid)) with
    | leanError m => rw [hrr] at h; simp [Response.isLeanError] at h
    | commandResponse e2 => simp [hrr]
    | proofStepResponse p2 => simp [hrr]

theorem pickle_addAll_spec :
    ∀ (inputs : List PickleAddInput) (c : PickleSessionCache) (run : Request → Response),
      (∀ inp ∈ inputs, pickleAddOk run c.working_dir inp = true) →
      (c.addAll run inputs).1.state_counter = c.state_counter - inputs.length ∧
      (c.addAll run inputs).2 =
        (List.range inputs.length).map (fun i => .ok (c.state_counter - (i + 1))) := by
  intro inputs
  induction inputs with
  | nil =>
    intro c run h
    exact ⟨by simp [PickleSessionCache.addAll], by simp [PickleSessionCache.addAll]⟩
  | cons inp rest ih =>
    intro c run hall
    have hok := hall inp (List.mem_cons_self _ _)
    have hrest0 : ∀ x ∈ rest, pickleAddOk run c.working_dir x = true :=
      fun x hx => hall x (List.mem_cons_of_mem _ hx)
    obtain ⟨sk, req, objId, pid, resp⟩ := inp
    obtain ⟨hr2, hcnt, hwd⟩ := pickle_add_ok_shape c run sk req objId pid resp hok
    obtain ⟨ihc, ihl⟩ :=
      ih (c.add run sk req objId pid resp).1 run (by rw [hwd]; exact hrest0)
    refine ⟨?_, ?_⟩
    · show ((c.add run sk req objId pid resp).1.addAll run rest).1.state_counter = _
      rw [ihc, hcnt, List.length_cons]
      push_cast
      ring
    · show (c.add run sk req objId pid resp).2.2 ::
        ((c.add run sk req objId pid resp).1.addAll run rest).2 = _
      rw [hr2, ihl, hcnt, List.length_cons, List.range_succ_eq_map, List.map_cons,
        List.map_map]
      refine congrArg₂ List.cons ?_ ?_
      · norm_num
      · refine List.map_congr_left ?_
        intro i hi
        simp only [Function.comp_apply]
        congr 1
        push_cast
        ring

/-- C4: on a fresh cache instance of either strategy, a sequence of
successful `add` calls returns the handles `-1, -2, -3, …`: every handle is
strictly negative and each successive handle is exactly one less than the
previous one. -/
theorem claim_C4 :
    (∀ (lazy : Bool) (inputs : List (String × Request × Response)),
      (∀ inp ∈ inputs, inp.2.2.isStateResponse = true) →
      ((mkReplaySessionCache lazy).addAll inputs).2 =
        (List.range inputs.length).map (fun i => .ok (-(i + 1 : Int))) ∧
      (∀ x ∈ ((mkReplaySessionCache lazy).addAll inputs).2,
        ∃ k : Int, x = .ok k ∧ k < 0) ∧
      (∀ i : Nat, i + 1 < inputs.length →
        ∃ a b : Int,
          ((mkReplaySessionCache lazy).addAll inputs).2.getD i (.error (.keyError 0)) =
            .ok a ∧
          ((mkReplaySessionCache lazy).addAll inputs).2.getD (i + 1)
            (.error (.keyError 0)) = .ok b ∧
          a < 0 ∧ b = a - 1)) ∧
    (∀ (wd : String) (run : Request → Response) (inputs : List PickleAddInput),
      (∀ inp ∈ inputs, pickleAddOk run wd inp = true) →
      ((mkPickleSessionCache wd).addAll run inputs).2 =
        (List.range inputs.length).map (fun i => .ok (-(i + 1 : Int))) ∧
      (∀ x ∈ ((mkPickleSessionCache wd).addAll run inputs).2,
        ∃ k : Int, x = .ok k ∧ k < 0) ∧
      (∀ i : Nat, i + 1 < inputs.length →
        ∃ a b : Int,
          ((mkPickleSessionCache wd).addAll run inputs).2.getD i (.error (.keyError 0)) =
            .ok a ∧
          ((mkPickleSessionCache wd).addAll run inputs).2.getD (i + 1)
            (.error (.keyError 0)) = .ok b ∧
          a < 0 ∧ b = a - 1)) := by
  constructor
  · intro lazy inputs h
    obtain ⟨hc, hl⟩ := replay_addAll_spec inputs (mkReplaySessionCache lazy) h
    have h0 : (mkReplaySessionCache lazy).state_counter = 0 := rfl
    rw [h0] at hl
    have hl2 : ((mkReplaySessionCache lazy).addAll inputs).2 =
        (List.range inputs.length).map (fun i => .ok (-(i + 1 : Int))) := by
      rw [hl]
      refine List.map_congr_left ?_
      intro i hi
      congr 1
    refine ⟨hl2, ?_, ?_⟩
    · intro x hx
      rw [hl2] at hx
      obtain ⟨i, hi, rfl⟩ := List.mem_map.mp hx
      exact ⟨-(i + 1 : Int), rfl, by omega⟩
    · intro i hilt
      rw [hl2, getD_map_range _ _ _ (by omega), getD_map_range _ _ _ (by omega)]
      refine ⟨-(i + 1 : Int), -((i + 1 : Nat) + 1 : Int), rfl, rfl, by omega, by push_cast; ring⟩
  · intro wd run inputs h
    obtain ⟨hc, hl⟩ := pickle_addAll_spec inputs (mkPickleSessionCache wd) run h
    have h0 : (mkPickleSessionCache wd).state_counter = 0 := rfl
    rw [h0] at hl
    have hl2 : ((mkPickleSessionCache wd).addAll run inputs).2 =
        (List.range inputs.length).map (fun i => .ok (-(i + 1 : Int))) := by
      rw [hl]
      refine List.map_congr_left ?_
      intro i hi
      congr 1
    refine ⟨hl2, ?_, ?_⟩
    · intro x hx
      rw [hl2] at hx
      obtain ⟨i, hi, rfl⟩ := List.mem_map.mp hx
      exact ⟨-(i + 1 : Int), rfl, by omega⟩
    · intro i hilt
      rw [hl2, getD_map_range _ _ _ (by omega), getD_map_range _ _ _ (by omega)]
      refine ⟨-(i + 1 : Int), -((i + 1 : Nat) + 1 : Int), rfl, rfl, by omega, by push_cast; ring⟩

/-- Witness for C4 at two-element add sequences on both strategies. -/
theorem claim_C4_witness :
    ((∀ inp ∈ [("k", Request.command "a" none, Response.commandResponse 1),
        ("k", Request.command "b" none, Response.proofStepResponse 2)],
       inp.2.2.isStateResponse = true) ∧
     ((mkReplaySessionCache true).addAll
        [("k", .command "a" none, .commandResponse 1),
         ("k", .command "b" none, .proofStepResponse 2)]).2 =
       (List.range ([("k", Request.command "a" none, Response.commandResponse 1),
          ("k", Request.command "b" none, Response.proofStepResponse 2)] :
            List (String × Request × Response)).length).map
         (fun i => .ok (-(i + 1 : Int)))) ∧
    ((∀ inp ∈ [(⟨"k", .command "a" none, 1, 2, .commandResponse 1⟩ : PickleAddInput),
        ⟨"k", .command "b" none, 3, 2, .proofStepResponse 2⟩],
       pickleAddOk (fun _ => .commandResponse 0) "wd" inp = true) ∧
     ((mkPickleSessionCache "wd").addAll (fun _ => .commandResponse 0)
        [⟨"k", .command "a" none, 1, 2, .commandResponse 1⟩,
         ⟨"k", .command "b" none, 3, 2, .proofStepResponse 2⟩]).2 =
       (List.range ([⟨"k", .command "a" none, 1, 2, .commandResponse 1⟩,
          ⟨"k", .command "b" none, 3, 2, .proofStepResponse 2⟩] :
            List PickleAddInput).length).map (fun i => .ok (-(i + 1 : Int)))) :=
  ⟨⟨by decide,
    (claim_C4.1 true
      [("k", .command "a" none, .commandResponse 1),
       ("k", .command "b" none, .proofStepResponse 2)] (by decide)).1⟩,
   ⟨by decide,
    (claim_C4.2 "wd" (fun _ => .commandResponse 0)
      [⟨"k", .command "a" none, 1, 2, .commandResponse 1⟩,
       ⟨"k", .command "b" none, 3, 2, .proofStepResponse 2⟩] (by decide)).1⟩⟩

theorem string_data_ext (a b : String) (h : a.data = b.data) : a = b := by
  cases a with
  | mk d1 =>
    cases b with
    | mk d2 =>
      have hd : d1 = d2 := h
      rw [hd]

theorem pickleFilePathOf_pid_inj (wd : String) (r1 r2 : Request) (o1 o2 p1 p2 : Nat)
    (h : pickleFilePathOf wd r1 o1 p1 = pickleFilePathOf wd r2 o2 p2) : p1 = p2 := by
  apply decimalRepr_inj
  have hdata := congrArg String.data h
  simp only [pickleFilePathOf, String.data_append, List.append_assoc] at hdata
  have h1 := List.append_cancel_left hdata
  have h2 := List.append_cancel_left h1
  have hlen : (sha256hex ("request_" ++ r1.typeName ++ "_" ++ decimalRepr o1)).data.length =
      (sha256hex ("request_" ++ r2.typeName ++ "_" ++ decimalRepr o2)).data.length := by
    rw [sha256hex_data_length, sha256hex_data_length]
  have h3 := (List.append_inj h2 hlen).2
  have h4 := List.append_cancel_left h3
  have h5 := List.append_cancel_right h4
  exact string_data_ext _ _ h5

set_option maxRecDepth 400000 in
/-- Counterexample to C7 as stated: the pickle backing-file name hashes the
request's CPython object identity (`id(request)`), not its content.  Two
`add` calls in the same process (pid 1) with equal-content requests but
distinct object identities 100 and 101 compute different backing paths,
refuting "equal requests in the same process map to the same artifact". -/
theorem claim_C7_counterexample :
    pickleFilePathOf "wd" (.command "def x := 1" none) 100 1 ≠
    pickleFilePathOf "wd" (.command "def x := 1" none) 101 1 := by
  decide

theorem isLeanError_false_of_bnot {r : Response} (h : (!r.isLeanError) = true) :
    r.isLeanError = false := by
  cases hr : r.isLeanError
  · rfl
  · rw [hr] at h; simp at h

theorem pickle_add_cmd_eq (c : PickleSessionCache) (run : Request → Response)
    (sk : String) (req : Request) (objId pid : Nat) (e : Int)
    (h : (run (Request.pickleEnvironment e
        (pickleFilePathOf c.working_dir req objId pid))).isLeanError = false) :
    c.add run sk req objId pid (.commandResponse e) =
      ({ cache := dinsert c.cache (c.state_counter - 1)
           ⟨c.state_counter - 1, false, [(sk, some e)],
            pickleFilePathOf c.working_dir req objId pid⟩,
         state_counter := c.state_counter - 1, working_dir := c.working_dir },
       [Request.pickleEnvironment e (pickleFilePathOf c.working_dir req objId pid)],
       .ok (c.state_counter - 1)) := by
  unfold PickleSessionCache.add
  simp only [PickleSessionCache.pickle_file_path]
  cases hrr : run (Request.pickleEnvironment e
      (pickleFilePathOf c.working_dir req objId pid)) with
  | leanError m => rw [hrr] at h; simp [Response.isLeanError] at h
  | commandResponse e2 => simp
  | proofStepResponse p2 => simp

theorem pickle_add_ps_eq (c : PickleSessionCache) (run : Request → Response)
    (sk : String) (req : Request) (objId pid : Nat) (p : Int)
    (h : (run (Request.pickleProofState p
        (pickleFilePathOf c.working_dir req objId pid))).isLeanError = false) :
    c.add run sk req objId pid (.proofStepResponse p) =
      ({ cache := dinsert c.cache (c.state_counter - 1)
           ⟨c.state_counter - 1, true, [(sk, some p)],
            pickleFilePathOf c.working_dir req objId pid⟩,
         state_counter := c.state_counter - 1, working_dir := c.working_dir },
       [Request.pickleProofState p (pickleFilePathOf c.working_dir req objId pid)],
       .ok (c.state_counter - 1)) := by
  unfold PickleSessionCache.add
  simp only [PickleSessionCache.pickle_file_path]
  cases hrr : run (Request.pickleProofState p
      (pickleFilePathOf c.working_dir req objId pid)) with
  | leanError m => rw [hrr] at h; simp [Response.isLeanError] at h
  | commandResponse e2 => simp
  | proofStepResponse p2 => simp

/-- C7 (amended): the backing-file path of a pickle `add` is determined
solely by the request's runtime type name, its object identity, the owning
process id and the cache working directory — not by the request content —
and a successful `add` stores exactly that path; two calls agree on the path
whenever type name, object identity and process id coincide (in particular
the same request object in the same process always reuses its artifact),
and paths from different process ids never collide. -/
theorem claim_C7_amended :
    (∀ (wd : String) (r1 r2 : Request) (objId pid : Nat),
      r1.typeName = r2.typeName →
      pickleFilePathOf wd r1 objId pid = pickleFilePathOf wd r2 objId pid) ∧
    (∀ (c : PickleSessionCache) (run : Request → Response) (sk : String) (req : Request)
       (objId pid : Nat) (resp : Response),
      pickleAddOk run c.working_dir ⟨sk, req, objId, pid, resp⟩ = true →
      (c.add run sk req objId pid resp).2.2 = .ok (c.state_counter - 1) ∧
      ∃ st, dlookup (c.add run sk req objId pid resp).1.cache (c.state_counter - 1) =
          some st ∧
        st.pickle_file = pickleFilePathOf c.working_dir req objId pid) ∧
    (∀ (wd : String) (r1 r2 : Request) (o1 o2 p1 p2 : Nat),
      pickleFilePathOf wd r1 o1 p1 = pickleFilePathOf wd r2 o2 p2 → p1 = p2) := by
  refine ⟨?_, ?_, ?_⟩
  · intro wd r1 r2 objId pid h
    simp [pickleFilePathOf, h]
  · intro c run sk req objId pid resp h
    cases resp with
    | leanError m => simp [pickleAddOk] at h
    | commandResponse e =>
      simp only [pickleAddOk] at h
      rw [pickle_add_cmd_eq c run sk req objId pid e (isLeanError_false_of_bnot h)]
      exact ⟨rfl, _, dlookup_dinsert_self _ _ _, rfl⟩
    | proofStepResponse p =>
      simp only [pickleAddOk] at h
      rw [pickle_add_ps_eq c run sk req objId pid p (isLeanError_false_of_bnot h)]
      exact ⟨rfl, _, dlookup_dinsert_self _ _ _, rfl⟩
  · exact pickleFilePathOf_pid_inj

/-- Witness for C7 (amended): two different `Command` contents share a path
when object identity and pid agree; a successful add stores the computed
path; identical naming inputs trivially share a pid. -/
theorem claim_C7_witness :
    ((Request.command "a" none).typeName = (Request.command "b" (some 3)).typeName ∧
     pickleFilePathOf "wd" (.command "a" none) 7 2 =
       pickleFilePathOf "wd" (.command "b" (some 3)) 7 2) ∧
    (pickleAddOk (fun _ => .commandResponse 0) (mkPickleSessionCache "wd").working_dir
        ⟨"k", .command "a" none, 7, 2, .commandResponse 3⟩ = true ∧
     ((mkPickleSessionCache "wd").add (fun _ => .commandResponse 0) "k"
        (.command "a" none) 7 2 (.commandResponse 3)).2.2 =
       .ok ((mkPickleSessionCache "wd").state_counter - 1) ∧
     ∃ st, dlookup ((mkPickleSessionCache "wd").add (fun _ => .commandResponse 0) "k"
        (.command "a" none) 7 2 (.commandResponse 3)).1.cache
          ((mkPickleSessionCache "wd").state_counter - 1) = some st ∧
       st.pickle_file = pickleFilePathOf (mkPickleSessionCache "wd").working_dir
         (.command "a" none) 7 2) ∧
    (5 : Nat) = 5 :=
  ⟨⟨rfl, claim_C7_amended.1 "wd" (.command "a" none) (.command "b" (some 3)) 7 2 rfl⟩,
   ⟨by decide,
    claim_C7_amended.2.1 (mkPickleSessionCache "wd") (fun _ => .commandResponse 0) "k"
      (.command "a" none) 7 2 (.commandResponse 3) (by decide)⟩,
   claim_C7_amended.2.2 "wd" (.command "a" none) (.command "a" none) 7 7 5 5 rfl⟩

/-- C8: when no dependency graph is available (dependency caching disabled
or no graph cached yet), any detected content change marks every known file
server for restart — no unit's invalidation is skipped. -/
theorem claim_C8 (ws : LeanWorkspace) (fs : List (String × String))
    (hno : ws.cache_dependencies = false ∨ ws.dependency_graph = none)
    (hch : (scan_project_files fs
        (((dkeys ws.file_content_hashes).filter
          (fun f => !((fs.map Prod.fst).contains f))).foldl dremove
          ws.file_content_hashes)).2 ≠ []) :
    ∀ f ∈ ws.file_servers,
      dlookup (ws.check_project_changes fs).needs_restart f = some true := by
  intro f hf
  have hmark : ∀ (ws1 : LeanWorkspace) (changed : List String),
      ws1.cache_dependencies = ws.cache_dependencies →
      ws1.dependency_graph = ws.dependency_graph →
      ws1.file_servers = ws.file_servers →
      dlookup (ws1.mark_dependent_files_for_restart changed).needs_restart f =
        some true := by
    intro ws1 changed hcd hdg hfs
    unfold LeanWorkspace.mark_dependent_files_for_restart
    rw [if_pos ?hcond]
    case hcond =>
      rcases hno with h | h
      · exact Or.inl (by rw [hcd, h]; simp)
      · exact Or.inr (by rw [hdg, h])
    dsimp only
    rw [dlookup_foldl_mark, hfs, if_pos hf]
  unfold LeanWorkspace.check_project_changes
  dsimp only
  rw [if_neg hch]
  exact hmark _ _ rfl rfl rfl

set_option maxRecDepth 400000 in
/-- Witness for C8: caching is off, one file changed, one server exists. -/
theorem claim_C8_witness :
    ((LeanWorkspace.mk false ["X.lean"] [("A.lean", "old")] [] (mkPickleSessionCache "wd")
        [] none).cache_dependencies = false ∨
     (LeanWorkspace.mk false ["X.lean"] [("A.lean", "old")] [] (mkPickleSessionCache "wd")
        [] none).dependency_graph = none) ∧
    ((scan_project_files [("A.lean", "new")]
        (((dkeys (LeanWorkspace.mk false ["X.lean"] [("A.lean", "old")] []
            (mkPickleSessionCache "wd") [] none).file_content_hashes).filter
          (fun f => !(([("A.lean", "new")].map Prod.fst).contains f))).foldl dremove
          (LeanWorkspace.mk false ["X.lean"] [("A.lean", "old")] []
            (mkPickleSessionCache "wd") [] none).file_content_hashes)).2 ≠ []) ∧
    (∀ f ∈ (LeanWorkspace.mk false ["X.lean"] [("A.lean", "old")] []
        (mkPickleSessionCache "wd") [] none).file_servers,
      dlookup ((LeanWorkspace.mk false ["X.lean"] [("A.lean", "old")] []
          (mkPickleSessionCache "wd") [] none).check_project_changes
          [("A.lean", "new")]).needs_restart f = some true) :=
  ⟨Or.inl rfl, by decide,
   claim_C8 (LeanWorkspace.mk false ["X.lean"] [("A.lean", "old")] []
       (mkPickleSessionCache "wd") [] none)
     [("A.lean", "new")] (Or.inl rfl) (by decide)⟩

/-- C1 is a code bug, evaluated at the failing input: the workspace has
cached session `-1` (owned by the main server, local id 5); running
`Command(cmd="#check x", env=-1)` without an explicit server routes by the
ownership map and then `_resolve_session_ids` reads the non-existent
attribute `session_data.repl_id` (the dataclass only defines `repl_ids`),
raising `AttributeError` before anything is forwarded: no substitution with
the cached non-negative local id takes place and no request reaches any
server (the event trace is empty).  The repository's own test
`test_workspace.py::test_global_session_management` exercises exactly this
call and asserts it succeeds. -/
theorem claim_C1_code_eval :
    wsC1.run worldC1 (.command "#check x" (some (-1))) 0 0 false none =
      ({ wsC1 with file_servers := ["main"], needs_restart := [("main", false)] },
       [], .error (.attributeError "PickleSessionState object has no attribute repl_id")) := by
  decide

theorem mark_cache_dependencies (ws : LeanWorkspace) (changed : List String) :
    (ws.mark_dependent_files_for_restart changed).cache_dependencies =
      ws.cache_dependencies := by
  unfold LeanWorkspace.mark_dependent_files_for_restart
  split <;> rfl

theorem mark_dependency_graph (ws : LeanWorkspace) (changed : List String) :
    (ws.mark_dependent_files_for_restart changed).dependency_graph =
      ws.dependency_graph := by
  unfold LeanWorkspace.mark_dependent_files_for_restart
  split <;> rfl

theorem mark_file_servers (ws : LeanWorkspace) (changed : List String) :
    (ws.mark_dependent_files_for_restart changed).file_servers = ws.file_servers := by
  unfold LeanWorkspace.mark_dependent_files_for_restart
  split <;> rfl

theorem mark_session_cache (ws : LeanWorkspace) (changed : List String) :
    (ws.mark_dependent_files_for_restart changed).session_cache = ws.session_cache := by
  unfold LeanWorkspace.mark_dependent_files_for_restart
  split <;> rfl

theorem mark_session_server_map (ws : LeanWorkspace) (changed : List String) :
    (ws.mark_dependent_files_for_restart changed).session_server_map =
      ws.session_server_map := by
  unfold LeanWorkspace.mark_dependent_files_for_restart
  split <;> rfl

theorem check_cache_dependencies (ws : LeanWorkspace) (fs : List (String × String)) :
    (ws.check_project_changes fs).cache_dependencies = ws.cache_dependencies := by
  unfold LeanWorkspace.check_project_changes
  dsimp only
  split
  · rfl
  · rw [mark_cache_dependencies]

theorem check_dependency_graph (ws : LeanWorkspace) (fs : List (String × String)) :
    (ws.check_project_changes fs).dependency_graph = ws.dependency_graph := by
  unfold LeanWorkspace.check_project_changes
  dsimp only
  split
  · rfl
  · rw [mark_dependency_graph]

theorem check_file_servers (ws : LeanWorkspace) (fs : List (String × String)) :
    (ws.check_project_changes fs).file_servers = ws.file_servers := by
  unfold LeanWorkspace.check_project_changes
  dsimp only
  split
  · rfl
  · rw [mark_file_servers]

theorem check_session_cache (ws : LeanWorkspace) (fs : List (String × String)) :
    (ws.check_project_changes fs).session_cache = ws.session_cache := by
  unfold LeanWorkspace.check_project_changes
  dsimp only
  split
  · rfl
  · rw [mark_session_cache]

theorem check_session_server_map (ws : LeanWorkspace) (fs : List (String × String)) :
    (ws.check_project_changes fs).session_server_map = ws.session_server_map := by
  unfold LeanWorkspace.check_project_changes
  dsimp only
  split
  · rfl
  · rw [mark_session_server_map]

/-- C2: with dependency caching on and a cached graph, if the graph records
that `B` depends on `A` (i.e. `A` is among `B`'s computed file
dependencies), `B` has a server, and the change scan detects exactly `A` as
changed, then the next `FileCommand` bound to `B` triggers exactly one
restart of `B`'s server, emitted before the request is forwarded; a
`FileCommand` bound to an unrelated unit `C` (not `A`, not depending on
`A`, not already flagged) triggers no restart of `C`'s server. -/
theorem claim_C2 (ws : LeanWorkspace) (w : World) (g : DiGraph) (A B C : String)
    (objId pid : Nat)
    (hcd : ws.cache_dependencies = true)
    (hg : ws.dependency_graph = some g)
    (hdep : A ∈ ws.file_dependencies B)
    (hBserv : B ∈ ws.file_servers)
    (hch : (scan_project_files w.fs
        (((dkeys ws.file_content_hashes).filter
          (fun f => !((w.fs.map Prod.fst).contains f))).foldl dremove
          ws.file_content_hashes)).2 = [A])
    (hCA : C ≠ A)
    (hCdep : A ∉ ws.file_dependencies C)
    (hCfs : C ∈ w.fs.map Prod.fst)
    (hCflag : dlookup ws.needs_restart C ≠ some true) :
    (ws.run w (.fileCommand B) objId pid false none).2.1 =
      [.restartServer B, .serverRun (.fileServer B) (.fileCommand B)] ∧
    (ws.run w (.fileCommand C) objId pid false none).2.1 =
      [.serverRun (.fileServer C) (.fileCommand C)] := by
  have hcheck : ws.check_project_changes w.fs =
      ({ ws with
          file_content_hashes := (scan_project_files w.fs
            (((dkeys ws.file_content_hashes).filter
              (fun f => !((w.fs.map Prod.fst).contains f))).foldl dremove
              ws.file_content_hashes)).1
          needs_restart := ((dkeys ws.file_content_hashes).filter
            (fun f => !((w.fs.map Prod.fst).contains f))).foldl dremove
            ws.needs_restart }).mark_dependent_files_for_restart [A] := by
    unfold LeanWorkspace.check_project_changes
    dsimp only
    rw [hch]
    rw [if_neg (by simp)]
  have hcd' : (ws.check_project_changes w.fs).cache_dependencies = true := by
    rw [check_cache_dependencies, hcd]
  have hg' : (ws.check_project_changes w.fs).dependency_graph = some g := by
    rw [check_dependency_graph, hg]
  have hfs' : (ws.check_project_changes w.fs).file_servers = ws.file_servers := by
    rw [check_file_servers]
  have hfd : ∀ (X : List (String × String)) (Y : List (String × Bool)) (C0 : String),
      (LeanWorkspace.mk ws.cache_dependencies ws.file_servers X Y ws.session_cache
        ws.session_server_map ws.dependency_graph).file_dependencies C0 =
        ws.file_dependencies C0 := fun _ _ _ => rfl
  have hBlook : dlookup (ws.check_project_changes w.fs).needs_restart B = some true := by
    rw [hcheck]
    unfold LeanWorkspace.mark_dependent_files_for_restart
    rw [if_neg (by simp [hcd, hg])]
    dsimp only
    simp only [hfd]
    have hPB : ((ws.file_dependencies B).filter
        (fun d => ([A] : List String).contains d)) ≠ [] :=
      List.ne_nil_of_mem (List.mem_filter.mpr ⟨hdep, by simp⟩)
    rw [dlookup_foldl_cond_mark, if_pos ⟨hBserv, hPB⟩]
  have hClook : dlookup (ws.check_project_changes w.fs).needs_restart C ≠ some true := by
    rw [hcheck]
    unfold LeanWorkspace.mark_dependent_files_for_restart
    rw [if_neg (by simp [hcd, hg])]
    dsimp only
    simp only [hfd]
    have hPC : ¬(C ∈ ws.file_servers ∧ ((ws.file_dependencies C).filter
        (fun d => ([A] : List String).contains d)) ≠ []) := by
      rintro ⟨-, hne⟩
      apply hne
      refine List.filter_eq_nil_iff.mpr ?_
      intro d hd hcont
      have hdA : d = A := by simpa using hcont
      exact hCdep (hdA ▸ hd)
    rw [dlookup_foldl_cond_mark, if_neg hPC]
    have hC1 : ¬(C ∈ ([A] : List String) ∧ C ∈ ws.file_servers) := by
      rintro ⟨hmem, -⟩
      exact hCA (by simpa using hmem)
    rw [dlookup_foldl_cond_mark, if_neg hC1]
    rw [dlookup_foldl_dremove_not_mem]
    · exact hCflag
    · intro hmem
      obtain ⟨h1, h2⟩ := List.mem_filter.mp hmem
      have hcc : ((w.fs.map Prod.fst).contains C) = true := by simp [hCfs]
      rw [hcc] at h2
      simp at h2
  constructor
  · unfold LeanWorkspace.run
    dsimp only [filenameOfPath]
    rw [if_neg (by simp [hg'])]
    unfold LeanWorkspace.check_and_restart_if_needed
    rw [if_pos hBlook]
    unfold LeanWorkspace.restart_file_server
    rw [if_pos (by rw [hfs']; exact hBserv)]
    dsimp only
    unfold LeanWorkspace.get_server_for_file
    rw [if_pos (show B ∈ (ws.check_project_changes w.fs).file_servers by
      rw [hfs']; exact hBserv)]
    unfold LeanWorkspace.run_finish
    rw [if_neg (by simp)]
    rfl
  · unfold LeanWorkspace.run
    dsimp only [filenameOfPath]
    rw [if_neg (by simp [hg'])]
    unfold LeanWorkspace.check_and_restart_if_needed
    rw [if_neg hClook]
    unfold LeanWorkspace.run_finish
    rw [if_neg (by simp)]
    rfl

set_option maxRecDepth 400000 in
/-- Witness for C2: module `A` reaches `B` in the cached graph, `A.lean`'s
stored fingerprint is stale while `B.lean`'s and `C.lean`'s are current. -/
theorem claim_C2_witness :
    (wsC2.cache_dependencies = true ∧
     wsC2.dependency_graph = some graphC2 ∧
     "A.lean" ∈ wsC2.file_dependencies "B.lean" ∧
     "B.lean" ∈ wsC2.file_servers ∧
     (scan_project_files worldC2.fs
        (((dkeys wsC2.file_content_hashes).filter
          (fun f => !((worldC2.fs.map Prod.fst).contains f))).foldl dremove
          wsC2.file_content_hashes)).2 = ["A.lean"] ∧
     ("C.lean" : String) ≠ "A.lean" ∧
     "A.lean" ∉ wsC2.file_dependencies "C.lean" ∧
     "C.lean" ∈ worldC2.fs.map Prod.fst ∧
     dlookup wsC2.needs_restart "C.lean" ≠ some true) ∧
    ((wsC2.run worldC2 (.fileCommand "B.lean") 0 0 false none).2.1 =
       [.restartServer "B.lean",
        .serverRun (.fileServer "B.lean") (.fileCommand "B.lean")] ∧
     (wsC2.run worldC2 (.fileCommand "C.lean") 0 0 false none).2.1 =
       [.serverRun (.fileServer "C.lean") (.fileCommand "C.lean")]) :=
  ⟨⟨rfl, rfl, by decide, by decide, by decide, by decide, by decide, by decide,
    by decide⟩,
   claim_C2 wsC2 worldC2 graphC2 "A.lean" "B.lean" "C.lean" 0 0 rfl rfl
     (by decide) (by decide) (by decide) (by decide) (by decide) (by decide)
     (by decide)⟩

theorem nodup_dkeys_dinsert {α : Type} [DecidableEq α] {β : Type}
    {m : List (α × β)} (k : α) (v : β) (h : (dkeys m).Nodup) :
    (dkeys (dinsert m k v)).Nodup := by
  induction m with
  | nil => simp [dinsert, dkeys]
  | cons hd tl ih =>
    rw [dkeys_cons] at h
    obtain ⟨hhd, htl⟩ := List.nodup_cons.mp h
    by_cases hk : hd.1 = k
    · rw [dinsert, if_pos hk, dkeys_cons]
      exact List.nodup_cons.mpr ⟨by simpa [hk] using hhd, htl⟩
    · rw [dinsert, if_neg hk, dkeys_cons]
      refine List.nodup_cons.mpr ⟨?_, ih htl⟩
      intro hmem
      rcases (mem_dkeys_dinsert tl k hd.1 v).mp hmem with h1 | h1
      · exact hk h1
      · exact hhd h1

theorem nodup_dkeys_dremove {α : Type} [DecidableEq α] {β : Type}
    {m : List (α × β)} (k : α) (h : (dkeys m).Nodup) :
    (dkeys (dremove m k)).Nodup := by
  induction m with
  | nil => simp [dremove, dkeys]
  | cons hd tl ih =>
    rw [dkeys_cons] at h
    obtain ⟨hhd, htl⟩ := List.nodup_cons.mp h
    by_cases hk : hd.1 = k
    · rw [dremove, if_pos hk]
      exact htl
    · rw [dremove, if_neg hk, dkeys_cons]
      exact List.nodup_cons.mpr ⟨fun hmem => hhd (mem_dkeys_dremove hmem), ih htl⟩

theorem not_mem_dkeys_dremove_self {α : Type} [DecidableEq α] {β : Type}
    {m : List (α × β)} (k : α) (h : (dkeys m).Nodup) :
    k ∉ dkeys (dremove m k) := by
  induction m with
  | nil => simp [dremove, dkeys]
  | cons hd tl ih =>
    rw [dkeys_cons] at h
    obtain ⟨hhd, htl⟩ := List.nodup_cons.mp h
    by_cases hk : hd.1 = k
    · rw [dremove, if_pos hk]
      exact hk ▸ hhd
    · rw [dremove, if_neg hk, dkeys_cons]
      intro hmem
      rcases List.mem_cons.mp hmem with h1 | h1
      · exact hk h1.symm
      · exact ih htl h1

theorem mem_dkeys_dremove_of_ne {α : Type} [DecidableEq α] {β : Type}
    {m : List (α × β)} {x k : α} (hne : x ≠ k) (hx : x ∈ dkeys m) :
    x ∈ dkeys (dremove m k) := by
  induction m with
  | nil => simp [dkeys_nil] at hx
  | cons hd tl ih =>
    rw [dkeys_cons] at hx
    by_cases hk : hd.1 = k
    · rw [dremove, if_pos hk]
      rcases List.mem_cons.mp hx with h1 | h1
      · exact absurd (h1.trans hk) hne
      · exact h1
    · rw [dremove, if_neg hk, dkeys_cons]
      rcases List.mem_cons.mp hx with h1 | h1
      · exact h1 ▸ List.mem_cons_self _ _
      · exact List.mem_cons_of_mem _ (ih h1)

theorem eq_leanError_of_isLeanError {r : Response} (h : r.isLeanError = true) :
    ∃ m, r = .leanError m := by
  cases r with
  | leanError m => exact ⟨m, rfl⟩
  | commandResponse e => simp [Response.isLeanError] at h
  | proofStepResponse p => simp [Response.isLeanError] at h

theorem pickle_add_cmd_err_eq (c : PickleSessionCache) (run : Request → Response)
    (sk : String) (req : Request) (objId pid : Nat) (e : Int) (m : String)
    (h : run (Request.pickleEnvironment e
        (pickleFilePathOf c.working_dir req objId pid)) = .leanError m) :
    c.add run sk req objId pid (.commandResponse e) =
      ({ c with state_counter := c.state_counter - 1 },
       [Request.pickleEnvironment e (pickleFilePathOf c.working_dir req objId pid)],
       .error (.valueError
         ("Could not store the result in the session cache. The server returned an error: " ++
           m))) := by
  unfold PickleSessionCache.add
  simp only [PickleSessionCache.pickle_file_path]
  rw [h]

theorem pickle_add_ps_err_eq (c : PickleSessionCache) (run : Request → Response)
    (sk : String) (req : Request) (objId pid : Nat) (p : Int) (m : String)
    (h : run (Request.pickleProofState p
        (pickleFilePathOf c.working_dir req objId pid)) = .leanError m) :
    c.add run sk req objId pid (.proofStepResponse p) =
      ({ c with state_counter := c.state_counter - 1 },
       [Request.pickleProofState p (pickleFilePathOf c.working_dir req objId pid)],
       .error (.valueError
         ("Could not store the result in the session cache. The server returned an error: " ++
           m))) := by
  unfold PickleSessionCache.add
  simp only [PickleSessionCache.pickle_file_path]
  rw [h]

theorem pickle_add_cache_keys (c : PickleSessionCache) (run : Request → Response)
    (sk : String) (req : Request) (objId pid : Nat) (resp : Response) :
    (∀ x ∈ dkeys c.cache, x ∈ dkeys (c.add run sk req objId pid resp).1.cache) ∧
    (∀ sid, (c.add run sk req objId pid resp).2.2 = .ok sid →
      sid ∈ dkeys (c.add run sk req objId pid resp).1.cache) := by
  cases resp with
  | leanError m =>
    exact ⟨fun x hx => hx, fun sid h => absurd h (by simp [PickleSessionCache.add])⟩
  | commandResponse e =>
    cases hb : (run (Request.pickleEnvironment e
        (pickleFilePathOf c.working_dir req objId pid))).isLeanError with
    | true =>
      obtain ⟨m, hm⟩ := eq_leanError_of_isLeanError hb
      rw [pickle_add_cmd_err_eq c run sk req objId pid e m hm]
      exact ⟨fun x hx => hx, fun sid h => by simp at h⟩
    | false =>
      rw [pickle_add_cmd_eq c run sk req objId pid e hb]
      constructor
      · intro x hx
        exact (mem_dkeys_dinsert _ _ _ _).mpr (Or.inr hx)
      · intro sid h
        injection h with h3
        exact h3 ▸ (mem_dkeys_dinsert _ _ _ _).mpr (Or.inl rfl)
  | proofStepResponse p =>
    cases hb : (run (Request.pickleProofState p
        (pickleFilePathOf c.working_dir req objId pid))).isLeanError with
    | true =>
      obtain ⟨m, hm⟩ := eq_leanError_of_isLeanError hb
      rw [pickle_add_ps_err_eq c run sk req objId pid p m hm]
      exact ⟨fun x hx => hx, fun sid h => by simp at h⟩
    | false =>
      rw [pickle_add_ps_eq c run sk req objId pid p hb]
      constructor
      · intro x hx
        exact (mem_dkeys_dinsert _ _ _ _).mpr (Or.inr hx)
      · intro sid h
        injection h with h3
        exact h3 ▸ (mem_dkeys_dinsert _ _ _ _).mpr (Or.inl rfl)

theorem inv_transport {ws1 ws2 : LeanWorkspace}
    (hc : ws2.session_cache = ws1.session_cache)
    (hm : ws2.session_server_map = ws1.session_server_map)
    (h : SessionInv ws1) : SessionInv ws2 := by
  unfold SessionInv LeanWorkspace.session_map_consistent at *
  rw [hc, hm]
  exact h

theorem get_server_session_fields (ws : LeanWorkspace) (f : String) :
    (ws.get_server_for_file f).session_cache = ws.session_cache ∧
    (ws.get_server_for_file f).session_server_map = ws.session_server_map := by
  unfold LeanWorkspace.get_server_for_file
  split <;> exact ⟨rfl, rfl⟩

theorem check_restart_session_fields (ws : LeanWorkspace) (f : String) :
    (ws.check_and_restart_if_needed f).1.session_cache = ws.session_cache ∧
    (ws.check_and_restart_if_needed f).1.session_server_map = ws.session_server_map := by
  unfold LeanWorkspace.check_and_restart_if_needed LeanWorkspace.restart_file_server
  split
  · split <;> exact ⟨rfl, rfl⟩
  · exact ⟨rfl, rfl⟩

theorem wsadd_session_inv (ws : LeanWorkspace) (run : Request → Response)
    (fn sk : String) (req : Request) (objId pid : Nat) (resp : Response)
    (h : SessionInv ws) :
    SessionInv (ws.add_to_workspace_session_cache run fn sk req objId pid resp).1 := by
  obtain ⟨hinv, hnd⟩ := h
  cases resp with
  | leanError m => exact ⟨hinv, hnd⟩
  | commandResponse e =>
    unfold LeanWorkspace.add_to_workspace_session_cache
    dsimp only
    obtain ⟨hpres, hnew⟩ := pickle_add_cache_keys ws.session_cache run sk req objId pid
      (.commandResponse e)
    cases hr : (ws.session_cache.add run sk req objId pid (.commandResponse e)).2.2 with
    | ok session_id =>
      refine ⟨?_, nodup_dkeys_dinsert _ _ hnd⟩
      intro x hx
      rcases (mem_dkeys_dinsert _ _ _ _).mp hx with h1 | h1
      · exact h1 ▸ hnew session_id hr
      · exact hpres x (hinv x h1)
    | error err =>
      refine ⟨?_, hnd⟩
      intro x hx
      exact hpres x (hinv x hx)
  | proofStepResponse p =>
    unfold LeanWorkspace.add_to_workspace_session_cache
    dsimp only
    obtain ⟨hpres, hnew⟩ := pickle_add_cache_keys ws.session_cache run sk req objId pid
      (.proofStepResponse p)
    cases hr : (ws.session_cache.add run sk req objId pid (.proofStepResponse p)).2.2 with
    | ok session_id =>
      refine ⟨?_, nodup_dkeys_dinsert _ _ hnd⟩
      intro x hx
      rcases (mem_dkeys_dinsert _ _ _ _).mp hx with h1 | h1
      · exact h1 ▸ hnew session_id hr
      · exact hpres x (hinv x h1)
    | error err =>
      refine ⟨?_, hnd⟩
      intro x hx
      exact hpres x (hinv x hx)

theorem run_finish_session_inv (ws : LeanWorkspace) (w : World) (fn : String)
    (target : ServerId) (req : Request) (objId pid : Nat) (addc : Bool)
    (h : SessionInv ws) :
    SessionInv (ws.run_finish w fn target req objId pid addc).1 := by
  unfold LeanWorkspace.run_finish
  dsimp only
  split
  · exact wsadd_session_inv ws (w.oracle target) fn target.key req objId pid _ h
  · exact h

theorem run_session_inv (ws : LeanWorkspace) (w : World) (req : Request)
    (objId pid : Nat) (addc : Bool) (server : Option ServerId)
    (h : SessionInv ws) : SessionInv (ws.run w req objId pid addc server).1 := by
  cases server with
  | some srv =>
    unfold LeanWorkspace.run
    dsimp only
    cases hres : (match req with
      | .fileCommand _ => Except.ok req
      | _ => ws.resolve_session_ids req) with
    | error e => exact h
    | ok req1 => exact run_finish_session_inv ws w _ srv req1 objId pid addc h
  | none =>
    unfold LeanWorkspace.run
    cases req
    case fileCommand path =>
      dsimp only
      have hstep : ∀ (ws2 : LeanWorkspace),
          ws2.session_cache = ws.session_cache →
          ws2.session_server_map = ws.session_server_map →
          SessionInv ((ws2.check_and_restart_if_needed
            (filenameOfPath path)).1.get_server_for_file (filenameOfPath path)) := by
        intro ws2 hc hm
        refine inv_transport ?_ ?_ (inv_transport hc hm h)
        · rw [(get_server_session_fields _ _).1, (check_restart_session_fields _ _).1]
        · rw [(get_server_session_fields _ _).2, (check_restart_session_fields _ _).2]
      split
      · cases hext : w.graph_extraction with
        | some g =>
          apply run_finish_session_inv
          exact hstep _ (check_session_cache ws w.fs) (check_session_server_map ws w.fs)
        | none =>
          apply run_finish_session_inv
          exact hstep _ (check_session_cache ws w.fs) (check_session_server_map ws w.fs)
      · apply run_finish_session_inv
        exact hstep _ (check_session_cache ws w.fs) (check_session_server_map ws w.fs)
    all_goals {
      dsimp only
      split
      · split
        · exact h
        · apply run_finish_session_inv
          exact h
      · split
        · exact inv_transport (get_server_session_fields _ _).1
            (get_server_session_fields _ _).2 h
        · apply run_finish_session_inv
          exact inv_transport (get_server_session_fields _ _).1
            (get_server_session_fields _ _).2 h
    }

theorem applyOp_session_inv (w : World) (ws : LeanWorkspace) (op : WsOp)
    (h : SessionInv ws) : SessionInv (ws.applyOp w op) := by
  cases op with
  | runOp req objId pid addc server => exact run_session_inv ws w req objId pid addc server h
  | removeOp sid =>
    obtain ⟨hinv, hnd⟩ := h
    constructor
    · intro x hx
      by_cases hxs : x = sid
      · exact absurd hx (hxs ▸ not_mem_dkeys_dremove_self sid hnd)
      · exact mem_dkeys_dremove_of_ne hxs (hinv x (mem_dkeys_dremove hx))
    · exact nodup_dkeys_dremove sid hnd
  | clearOp =>
    exact ⟨fun x hx => by
        simp [LeanWorkspace.applyOp, LeanWorkspace.clear_session_cache, dkeys] at hx,
      by simp [LeanWorkspace.applyOp, LeanWorkspace.clear_session_cache, dkeys]⟩
  | invalidateOp =>
    exact ⟨fun x hx => by
        simp [LeanWorkspace.applyOp, LeanWorkspace.invalidate_dependency_cache, dkeys] at hx,
      by simp [LeanWorkspace.applyOp, LeanWorkspace.invalidate_dependency_cache, dkeys]⟩
  | closeOp =>
    exact ⟨fun x hx => by
        simp [LeanWorkspace.applyOp, LeanWorkspace.close, dkeys] at hx,
      by simp [LeanWorkspace.applyOp, LeanWorkspace.close, dkeys]⟩

/-- C10: the workspace keeps the session-to-server ownership map consistent
with the session cache: after any sequence of `run`, removal, clear,
dependency-cache invalidation and close operations, every session id that
is a key of the ownership map is present in the session cache (given a
consistent, duplicate-free starting state — as produced by the
constructor). -/
theorem claim_C10 (w : World) (ops : List WsOp) (ws : LeanWorkspace)
    (hinv : ws.session_map_consistent)
    (hnd : (dkeys ws.session_server_map).Nodup) :
    (ws.applyOps w ops).session_map_consistent := by
  suffices hs : SessionInv (ws.applyOps w ops) from hs.1
  unfold LeanWorkspace.applyOps
  induction ops generalizing ws with
  | nil => exact ⟨hinv, hnd⟩
  | cons op rest ih =>
    rw [List.foldl_cons]
    obtain ⟨h1, h2⟩ := applyOp_session_inv w ws op ⟨hinv, hnd⟩
    exact ih _ h1 h2

/-- Witness for C10: a fresh workspace, one cached run, then a removal, a
file command, a clear and a close. -/
theorem claim_C10_witness :
    ((mkLeanWorkspace "wd" true).session_map_consistent ∧
     (dkeys (mkLeanWorkspace "wd" true).session_server_map).Nodup) ∧
    ((mkLeanWorkspace "wd" true).applyOps worldC1
      [.runOp (.command "def x := 1" none) 1 2 true none,
       .runOp (.fileCommand "F.lean") 3 2 false none,
       .removeOp (-1),
       .clearOp,
       .closeOp]).session_map_consistent :=
  ⟨⟨fun x hx => by simp [mkLeanWorkspace, dkeys] at hx, by simp [mkLeanWorkspace, dkeys]⟩,
   claim_C10 worldC1
     [.runOp (.command "def x := 1" none) 1 2 true none,
      .runOp (.fileCommand "F.lean") 3 2 false none,
      .removeOp (-1),
      .clearOp,
      .closeOp]
     (mkLeanWorkspace "wd" true)
     (fun x hx => by simp [mkLeanWorkspace, dkeys] at hx)
     (by simp [mkLeanWorkspace, dkeys])⟩

end LeanInteract
